import Mathlib

/-!
A shallow embedding of the rlox tree-walking interpreter (`src/rlox/src/`):
the token types, the AST of `generate_ast.rs` (with the `Call`, `Function` and
`Return` variants used by `parser.rs` and `interpreter.rs`), the environments
of `environment.rs`, the evaluator of `interpreter.rs` and the
recursive-descent parser of `parser.rs`.

Modelling conventions:
* Rust `f64` numbers are modelled as exact (unreduced) fractions `F64`; every
  numeric computation in this development stays on small decimal values where
  `f64` arithmetic is exact, so exact rational arithmetic models it
  faithfully. Equality and order on `F64` compare the represented values by
  cross-multiplication, as `f64` comparison compares values.
* The interpreter's mutable state (`&mut self`) is threaded explicitly, and
  the stream written by `println!` in the `Print` arm is collected in a list.
* `HashMap<String, Object>` is modelled as an association list with
  replace-on-insert.
* Recursion through the AST and through function calls is bounded by an
  explicit fuel parameter; `none` means the fuel ran out (no run appearing in
  a theorem below exhausts its fuel).
* Enclosing scopes are shared through `Rc<RefCell<…>>` in `interpreter.rs`;
  in this functional model the scope chain is a list of frames, and
  `drop_enclosing` + `Rc::try_unwrap(previous)` (which recover the
  environment saved at entry together with every mutation made through the
  chain) are modelled by taking the chain's suffix at the saved depth.
-/

namespace RLox

/-- A synonym for Lean's `String`, usable inside the `Object` namespace where
the bare name `String` resolves to the constructor `Object.String`. -/
abbrev Str : Type := String

/-- Rust `f64`, modelled as an exact fraction `num / den` (every value built
below has `den > 0`). On the small decimal fractions this development
computes with, `f64` arithmetic is exact, so exact rational arithmetic is a
faithful model. -/
structure F64 where
  num : Int
  den : Nat
deriving DecidableEq

instance (n : Nat) : OfNat F64 n := ⟨⟨Int.ofNat n, 1⟩⟩

/-- `f64` addition (exact). -/
def F64.add (a b : F64) : F64 := ⟨a.num * b.den + b.num * a.den, a.den * b.den⟩

/-- `f64` subtraction (exact). -/
def F64.sub (a b : F64) : F64 := ⟨a.num * b.den - b.num * a.den, a.den * b.den⟩

/-- `f64` multiplication (exact). -/
def F64.mul (a b : F64) : F64 := ⟨a.num * b.num, a.den * b.den⟩

/-- `f64` division. Division by zero yields an infinity in `f64`, outside
this exact model (the result's `den` is then `0`); the only division by zero
appearing in this development is the one the short-circuit theorems prove is
*never evaluated*. -/
def F64.div (a b : F64) : F64 :=
  if b.num < 0 then ⟨-(a.num * b.den), a.den * b.num.natAbs⟩
  else ⟨a.num * b.den, a.den * b.num.natAbs⟩

/-- `f64` negation. -/
def F64.neg (a : F64) : F64 := ⟨-a.num, a.den⟩

/-- `f64` `<`: the represented values compared by cross-multiplication. -/
def F64.lt (a b : F64) : Bool := a.num * b.den < b.num * a.den

/-- `f64` `<=`. -/
def F64.le (a b : F64) : Bool := a.num * b.den ≤ b.num * a.den

/-- `f64` `==`: value equality, not representation equality. -/
instance : BEq F64 := ⟨fun a b => a.num * b.den == b.num * a.den⟩

/-- `token_type.rs`: the `TokenType` enum. The module is declared in `lib.rs`
but its file is not part of the snapshot; the variants are exactly those used
across `scanner.rs`, `parser.rs` and `interpreter.rs`. -/
inductive TokenType where
  | LeftParen | RightParen | LeftBrace | RightBrace
  | Comma | Dot | Minus | Plus | SemiColon | Slash | Star
  | Bang | BangEqual | Equal | EqualEqual
  | Greater | GreaterEqual | Less | LessEqual
  | Identifier | String | Number
  | And | Class | Else | False | Fun | For | If | Nil | Or
  | Print | Return | Super | This | True | Var | While
  | Eof
deriving DecidableEq, Repr

mutual

/-- `token.rs`: `enum Object`. In `token.rs` the `Fun` variant declares a
second `Environment` field, but `interpreter.rs` — the file the claims cite —
constructs `Object::Fun(Box::new(stmt.clone()))` and matches `Object::Fun(fun)`
with the `FunctionStmt` alone and never reads a closure environment; the
embedding follows `interpreter.rs`. -/
inductive Object where
  | String (s : String)
  | Num (n : F64)
  | Bool (b : Bool)
  | Fun (f : FunctionStmt)
  | None

/-- `token.rs`: `struct Token { token_type, lexeme, literal, line }`. -/
inductive Token where
  | mk (token_type : TokenType) (lexeme : String) (literal : Object) (line : Nat)

/-- `generate_ast.rs`: `enum Expr`, with each wrapper struct (`AssignExpr`,
`BinaryExpr`, …) flattened into the constructor's fields, plus the `Call`
variant (`CallExpr { callee, paren, arguments }`) constructed by `parser.rs`
and consumed by `interpreter.rs`. -/
inductive Expr where
  | Assign (name : Token) (value : Expr)
  | Binary (left : Expr) (operator : Token) (right : Expr)
  | Call (callee : Expr) (paren : Token) (arguments : List Expr)
  | Grouping (expression : Expr)
  | Literal (value : Object)
  | Logical (left : Expr) (operator : Token) (right : Expr)
  | Unary (operator : Token) (right : Expr)
  | Variable (name : Token)

/-- `generate_ast.rs`: `enum Stmt`, plus the `Function` and `Return` variants
(`FunctionStmt`, `ReturnStmt { keyword, value }`) used by `parser.rs` and
`interpreter.rs`. -/
inductive Stmt where
  | Block (statements : List Stmt)
  | Expression (expression : Expr)
  | Function (f : FunctionStmt)
  | If (condition : Expr) (then_branch : Stmt) (else_branch : Option Stmt)
  | Print (expression : Expr)
  | Return (keyword : Token) (value : Option Expr)
  | While (condition : Expr) (body : Stmt)
  | Var (name : Token) (initializer : Expr)

/-- `generate_ast.rs` / `parser.rs`: `FunctionStmt { name, params, body }`. -/
inductive FunctionStmt where
  | mk (name : Token) (params : List Token) (body : List Stmt)

end

def Token.token_type : Token → TokenType
  | .mk t _ _ _ => t

def Token.lexeme : Token → String
  | .mk _ l _ _ => l

def Token.literal : Token → Object
  | .mk _ _ o _ => o

def Token.line : Token → Nat
  | .mk _ _ _ n => n

def FunctionStmt.name : FunctionStmt → Token
  | .mk n _ _ => n

def FunctionStmt.params : FunctionStmt → List Token
  | .mk _ p _ => p

def FunctionStmt.body : FunctionStmt → List Stmt
  | .mk _ _ b => b

/-- `token.rs`: `Object::num` (`Result<f64, ()>`). -/
def Object.num : Object → Except Unit F64
  | .Num n => .ok n
  | _ => .error ()

/-- `token.rs`: `Object::str` (`Result<String, ()>`). -/
def Object.str : Object → Except Unit Str
  | .String s => .ok s
  | _ => .error ()

/-- `token.rs`: `Object::arity`: `Ok(stmt.params.len())` for a function. -/
def Object.arity : Object → Except Unit Nat
  | .Fun (.mk _ params _) => .ok params.length
  | _ => .error ()

mutual

/-- The derived `PartialEq` on `Object` (`token.rs`), except that the
hand-written `impl PartialEq for FunctionStmt` (`token.rs`) compares functions
by `name` and `params` only, not by body. -/
def objEq : Object → Object → Bool
  | .String a, .String b => a == b
  | .Num a, .Num b => a == b
  | .Bool a, .Bool b => a == b
  | .Fun (.mk n1 p1 _), .Fun (.mk n2 p2 _) => tokenEq n1 n2 && tokenListEq p1 p2
  | .None, .None => true
  | _, _ => false

/-- The derived `PartialEq` on `Token` (`token.rs`): all four fields. -/
def tokenEq : Token → Token → Bool
  | .mk t1 l1 o1 n1, .mk t2 l2 o2 n2 =>
    t1 == t2 && l1 == l2 && objEq o1 o2 && n1 == n2

/-- `PartialEq` on `Vec<Token>`: pointwise. -/
def tokenListEq : List Token → List Token → Bool
  | [], [] => true
  | t :: ts, u :: us => tokenEq t u && tokenListEq ts us
  | _, _ => false

end

/-- `lib.rs`: `struct LoxRuntimeError(Token, String)`. -/
structure LoxRuntimeError where
  token : Token
  message : String

/-- The error both `Environment::get` and `Environment::assign` build:
`LoxRuntimeError(name.clone(), format!("Undefined variable '{}'.", name.lexeme))`. -/
def undefinedVariable (name : Token) : LoxRuntimeError :=
  ⟨name, "Undefined variable '" ++ name.lexeme ++ "'."⟩

/-- `environment.rs`: `struct Environment { values: HashMap<String, Object>,
enclosing: Option<Box<Environment>> }`. -/
inductive Environment where
  | mk (values : List (String × Object)) (enclosing : Option Environment)

def Environment.values : Environment → List (String × Object)
  | .mk v _ => v

def Environment.enclosing : Environment → Option Environment
  | .mk _ e => e

/-- `HashMap::insert`: replace the binding when the key is present, else add it. -/
def insertVal : List (String × Object) → String → Object → List (String × Object)
  | [], k, v => [(k, v)]
  | (k', v') :: rest, k, v =>
    if k' = k then (k, v) :: rest else (k', v') :: insertVal rest k v

/-- `HashMap::get` / `contains_key`. -/
def lookupVal : List (String × Object) → String → Option Object
  | [], _ => none
  | (k', v') :: rest, k => if k' = k then some v' else lookupVal rest k

/-- `environment.rs`: `Environment::new`. -/
def Environment.new : Environment := .mk [] none

/-- `environment.rs`: `Environment::new_enclosing`. -/
def Environment.new_enclosing (enclosing : Environment) : Environment :=
  .mk [] (some enclosing)

/-- `environment.rs`: `Environment::define`. -/
def Environment.define : Environment → String → Object → Environment
  | .mk values enclosing, name, value => .mk (insertVal values name value) enclosing

/-- `environment.rs`: `Environment::get`: the current scope's map first, then
the enclosing chain; `UndefinedVariable` at the chain's end. -/
def Environment.get : Environment → Token → Except LoxRuntimeError Object
  | .mk values enclosing, name =>
    match lookupVal values name.lexeme with
    | some value => .ok value
    | none =>
      match enclosing with
      | some enc => enc.get name
      | none => .error (undefinedVariable name)

/-- `environment.rs`: `Environment::assign`, faithfully including its
fall-through: when the name is absent from the current scope the code runs
`enclosing.assign(name, value)?` — which does mutate the nearest enclosing
scope that defines the name — but then still ends in `Err(UndefinedVariable)`.
`Ok` is returned only when the name is in the *current* scope's map. -/
def Environment.assign :
    Environment → Token → Object → Environment × Except LoxRuntimeError Unit
  | .mk values enclosing, name, value =>
    if (lookupVal values name.lexeme).isSome then
      (.mk (insertVal values name.lexeme value) enclosing, .ok ())
    else
      match enclosing with
      | some enc =>
        match enc.assign name value with
        | (enc', .ok ()) => (.mk values (some enc'), .error (undefinedVariable name))
        | (enc', .error e) => (.mk values (some enc'), .error e)
      | none => (.mk values none, .error (undefinedVariable name))

/-- The number of enclosing links under an environment. -/
def Environment.depth : Environment → Nat
  | .mk _ none => 0
  | .mk _ (some enc) => enc.depth + 1

/-- The suffix of the scope chain whose depth is `d` (the whole chain when it
is no deeper than `d`). `interpreter.rs` saves `previous =
Rc::new(RefCell::new(self.environment.clone()))`, links every new frame to it,
and restores with `drop_enclosing` + `Rc::try_unwrap(previous)`: through the
shared `RefCell`s the restored value is the chain suffix at the saved depth,
carrying every mutation made through the chain. -/
def Environment.popTo (d : Nat) : Environment → Environment
  | .mk values none => .mk values none
  | .mk values (some enc) =>
    if enc.depth + 1 ≤ d then .mk values (some enc) else Environment.popTo d enc

/-- `interpreter.rs`: `enum LoxRuntimeException`. -/
inductive LoxRuntimeException where
  | Err (e : LoxRuntimeError)
  | Return (v : Object)

/-- The interpreter's mutable state: `Interpreter { environment }` together
with the stream of lines written by `println!` in the `Print` arm. -/
structure St where
  environment : Environment
  output : List String

/-- `Interpreter::new()`: an empty global environment, nothing printed yet. -/
def initSt : St := ⟨Environment.new, []⟩

/-- `interpreter.rs`: `Interpreter::is_truthy`: `false` and `nil` are falsy,
everything else is truthy. -/
def is_truthy : Object → Bool
  | .Bool b => b
  | .None => false
  | _ => true

/-- `interpreter.rs`: `Interpreter::check_number_operand`. The message string
is the source's, verbatim: "Operand must be number." (sic). -/
def check_number_operand (operator : Token) (operand : Object) :
    Except LoxRuntimeError F64 :=
  match operand.num with
  | .ok num => .ok num
  | .error _ => .error ⟨operator, "Operand must be number."⟩

/-- `interpreter.rs`: `Interpreter::check_number_operands`. The message string
is the source's, verbatim: "Operand must be numbers." (sic). -/
def check_number_operands (operator : Token) (a b : Object) :
    Except LoxRuntimeError (F64 × F64) :=
  match a.num, b.num with
  | .ok a, .ok b => .ok (a, b)
  | _, _ => .error ⟨operator, "Operand must be numbers."⟩

/-- The smallest `k` (starting at `k₀`, trying at most `fuel` values) with
`(num * 10 ^ k) % den = 0`. -/
def findDecExpAux (num : Int) (den : Nat) : Nat → Nat → Option Nat
  | _, 0 => none
  | k, fuel+1 =>
    if (num * 10 ^ k) % (den : Int) = 0 then some k
    else findDecExpAux num den (k + 1) fuel

/-- The decimal rendering underlying Rust's `f64::to_string`: the shortest
decimal form of the represented value, which never carries a trailing ".0"
(`2.0` renders as "2", `1.05` as "1.05"). Modelled exactly for the finite
decimal fractions this development prints: the smallest `k` with
`den ∣ num * 10 ^ k` gives the digit count after the point, and minimality
of `k` forbids trailing zeros. A value that is not a finite decimal falls
back to "?" (never reached below). -/
def F64.toString (q : F64) : String :=
  if q.den = 0 then "?"
  else if q.num % (q.den : Int) = 0 then ToString.toString (q.num / (q.den : Int))
  else
    match findDecExpAux q.num q.den 1 30 with
    | none => "?"
    | some k =>
      let scaled : Nat := (q.num * 10 ^ k / (q.den : Int)).natAbs
      let intPart : Nat := scaled / 10 ^ k
      let fracPart : Nat := scaled % 10 ^ k
      let fs : String := ToString.toString fracPart
      let sign : String := if q.num < 0 then "-" else ""
      sign ++ ToString.toString intPart ++ "." ++
        String.mk (List.replicate (k - fs.length) (Char.ofNat 48)) ++ fs

/-- Rust `str::replace`: replace every non-overlapping occurrence of `pat`
in the text, left to right. The fuel is the text's length (each step consumes
at least one character). -/
def replaceAllAux (pat rep : List Char) : Nat → List Char → List Char
  | 0, s => s
  | _+1, [] => []
  | fuel+1, c :: rest =>
    if pat.isPrefixOf (c :: rest) then
      rep ++ replaceAllAux pat rep fuel (List.drop (pat.length - 1) rest)
    else
      c :: replaceAllAux pat rep fuel rest

/-- Rust `str::replace` on `String`s. -/
def replaceAll (s pat rep : String) : String :=
  ⟨replaceAllAux pat.data rep.data s.data.length s.data⟩

/-- `interpreter.rs`: `Interpreter::strigify` (sic). Note the `Num` arm is
`n.to_string().replace(".0", "")`: it replaces *every* occurrence of ".0",
not just a trailing one. -/
def strigify : Object → String
  | .String s => s
  | .Bool b => toString b
  | .Num n => replaceAll (F64.toString n) ".0" ""
  | .Fun (.mk name _ _) => name.lexeme
  | .None => "nil"

mutual

/-- `interpreter.rs`: `Interpreter::execute_stmt`. The state is threaded
explicitly; `none` means the fuel ran out. In the `Block` arm the `?` on each
contained statement propagates a `Return` or an error *before* the code that
restores the previous environment runs, so on those paths the block's child
frame stays current. -/
def execute_stmt : Nat → Stmt → St → Option (St × Except LoxRuntimeException Unit)
  | 0, _, _ => none
  | fuel+1, stmt, s =>
    match stmt with
    | .Expression e =>
      match evaluate_expr fuel e s with
      | none => none
      | some (s, .error ex) => some (s, .error ex)
      | some (s, .ok _) => some (s, .ok ())
    | .If cond thenB elseB =>
      match evaluate_expr fuel cond s with
      | none => none
      | some (s, .error ex) => some (s, .error ex)
      | some (s, .ok v) =>
        if is_truthy v then execute_stmt fuel thenB s
        else
          match elseB with
          | some b => execute_stmt fuel b s
          | none => some (s, .ok ())
    | .While cond body =>
      match evaluate_expr fuel cond s with
      | none => none
      | some (s, .error ex) => some (s, .error ex)
      | some (s, .ok v) =>
        if is_truthy v then
          match execute_stmt fuel body s with
          | none => none
          | some (s, .error ex) => some (s, .error ex)
          | some (s, .ok ()) => execute_stmt fuel (.While cond body) s
        else some (s, .ok ())
    | .Function f =>
      some ({ s with environment := s.environment.define f.name.lexeme (.Fun f) },
        .ok ())
    | .Block stmts =>
      let d := s.environment.depth
      match execute_stmts fuel stmts
          { s with environment := Environment.new_enclosing s.environment } with
      | none => none
      | some (s, .error ex) => some (s, .error ex)
      | some (s, .ok ()) =>
        some ({ s with environment := s.environment.popTo d }, .ok ())
    | .Return _ value =>
      match value with
      | some e =>
        match evaluate_expr fuel e s with
        | none => none
        | some (s, .error ex) => some (s, .error ex)
        | some (s, .ok v) => some (s, .error (.Return v))
      | none => some (s, .error (.Return .None))
    | .Print e =>
      match evaluate_expr fuel e s with
      | none => none
      | some (s, .error ex) => some (s, .error ex)
      | some (s, .ok v) => some ({ s with output := s.output ++ [strigify v] }, .ok ())
    | .Var name init =>
      match evaluate_expr fuel init s with
      | none => none
      | some (s, .error ex) => some (s, .error ex)
      | some (s, .ok v) =>
        some ({ s with environment := s.environment.define name.lexeme v }, .ok ())

/-- The `for s in …` loops over statement lists (block bodies, function
bodies): run each statement in order, stopping at the first exception. -/
def execute_stmts : Nat → List Stmt → St → Option (St × Except LoxRuntimeException Unit)
  | 0, _, _ => none
  | _+1, [], s => some (s, .ok ())
  | fuel+1, stmt :: rest, s =>
    match execute_stmt fuel stmt s with
    | none => none
    | some (s, .error ex) => some (s, .error ex)
    | some (s, .ok ()) => execute_stmts fuel rest s

/-- `interpreter.rs`: `Interpreter::evaluate_expr`. The `Grouping` arm is
`evaluate_grouping` (it just evaluates the inner expression) and the `Literal`
arm is `evaluate_literal` (it clones the stored value), both inlined. -/
def evaluate_expr : Nat → Expr → St → Option (St × Except LoxRuntimeException Object)
  | 0, _, _ => none
  | fuel+1, e, s =>
    match e with
    | .Assign name value => evaluate_assign fuel name value s
    | .Binary l op r => evaluate_binary fuel l op r s
    | .Call c p args => evaluate_call fuel c p args s
    | .Grouping inner => evaluate_expr fuel inner s
    | .Literal v => some (s, .ok v)
    | .Unary op r => evaluate_unary fuel op r s
    | .Variable name =>
      match s.environment.get name with
      | .ok v => some (s, .ok v)
      | .error e => some (s, .error (.Err e))
    | .Logical l op r => evaluate_logical fuel l op r s

/-- `interpreter.rs`: `Interpreter::evaluate_assign`: evaluate the value,
`self.environment.assign(&expr.name, &value)?`, and yield the value. -/
def evaluate_assign : Nat → Token → Expr → St → Option (St × Except LoxRuntimeException Object)
  | 0, _, _, _ => none
  | fuel+1, name, valueE, s =>
    match evaluate_expr fuel valueE s with
    | none => none
    | some (s, .error ex) => some (s, .error ex)
    | some (s, .ok value) =>
      match s.environment.assign name value with
      | (env, .ok ()) => some ({ s with environment := env }, .ok value)
      | (env, .error e) => some ({ s with environment := env }, .error (.Err e))

/-- `interpreter.rs`: `Interpreter::evaluate_binary`: evaluate left, then
right, then dispatch on the operator. The `unimplemented!()` arm (an operator
the parser never attaches to a `Binary`) is modelled as `none`. -/
def evaluate_binary :
    Nat → Expr → Token → Expr → St → Option (St × Except LoxRuntimeException Object)
  | 0, _, _, _, _ => none
  | fuel+1, leftE, operator, rightE, s =>
    match evaluate_expr fuel leftE s with
    | none => none
    | some (s, .error ex) => some (s, .error ex)
    | some (s, .ok left) =>
      match evaluate_expr fuel rightE s with
      | none => none
      | some (s, .error ex) => some (s, .error ex)
      | some (s, .ok right) =>
        match operator.token_type with
        | .Plus =>
          match left, right with
          | .String a, .String b => some (s, .ok (.String (a ++ b)))
          | .Num a, .Num b => some (s, .ok (.Num (a.add b)))
          | _, _ =>
            some (s, .error (.Err
              ⟨operator, "Operands must be two numbers or two strings."⟩))
        | .Minus =>
          match check_number_operands operator left right with
          | .ok (a, b) => some (s, .ok (.Num (a.sub b)))
          | .error e => some (s, .error (.Err e))
        | .Star =>
          match check_number_operands operator left right with
          | .ok (a, b) => some (s, .ok (.Num (a.mul b)))
          | .error e => some (s, .error (.Err e))
        | .Slash =>
          match check_number_operands operator left right with
          | .ok (a, b) => some (s, .ok (.Num (a.div b)))
          | .error e => some (s, .error (.Err e))
        | .Greater =>
          match check_number_operands operator left right with
          | .ok (a, b) => some (s, .ok (.Bool (F64.lt b a)))
          | .error e => some (s, .error (.Err e))
        | .GreaterEqual =>
          match check_number_operands operator left right with
          | .ok (a, b) => some (s, .ok (.Bool (F64.le b a)))
          | .error e => some (s, .error (.Err e))
        | .Less =>
          match check_number_operands operator left right with
          | .ok (a, b) => some (s, .ok (.Bool (F64.lt a b)))
          | .error e => some (s, .error (.Err e))
        | .LessEqual =>
          match check_number_operands operator left right with
          | .ok (a, b) => some (s, .ok (.Bool (F64.le a b)))
          | .error e => some (s, .error (.Err e))
        | .BangEqual => some (s, .ok (.Bool (!objEq left right)))
        | .EqualEqual => some (s, .ok (.Bool (objEq left right)))
        | _ => none

/-- `interpreter.rs`: `Interpreter::evaluate_call`: evaluate the callee, then
each argument in order; only a `Fun` may be called; the arity must match the
argument count; then `Interpreter::call` runs the body. -/
def evaluate_call :
    Nat → Expr → Token → List Expr → St → Option (St × Except LoxRuntimeException Object)
  | 0, _, _, _, _ => none
  | fuel+1, calleeE, paren, argsE, s =>
    match evaluate_expr fuel calleeE s with
    | none => none
    | some (s, .error ex) => some (s, .error ex)
    | some (s, .ok callee) =>
      match evaluate_exprs fuel argsE s with
      | none => none
      | some (s, .error ex) => some (s, .error ex)
      | some (s, .ok arguments) =>
        match callee with
        | .Fun f =>
          if arguments.length ≠ f.params.length then
            some (s, .error (.Err ⟨paren,
              "Expected " ++ toString f.params.length ++ " arguments but got " ++
                toString arguments.length ++ "."⟩))
          else call fuel arguments f s
        | _ =>
          some (s, .error (.Err ⟨paren, "Can only call functions and classes."⟩))

/-- The argument-evaluation loop in `evaluate_call`: evaluate the argument
expressions left to right, stopping at the first exception. -/
def evaluate_exprs :
    Nat → List Expr → St → Option (St × Except LoxRuntimeException (List Object))
  | 0, _, _ => none
  | _+1, [], s => some (s, .ok [])
  | fuel+1, e :: rest, s =>
    match evaluate_expr fuel e s with
    | none => none
    | some (s, .error ex) => some (s, .error ex)
    | some (s, .ok v) =>
      match evaluate_exprs fuel rest s with
      | none => none
      | some (s, .error ex) => some (s, .error ex)
      | some (s, .ok vs) => some (s, .ok (v :: vs))

/-- `interpreter.rs`: `Interpreter::call`: push a fresh frame whose enclosing
scope is the *caller's current* environment (no environment captured at the
function's declaration is consulted — `Object::Fun` stores none), bind each
parameter to the corresponding argument (the source indexes `fun.params[i]`
for each argument `i`; `evaluate_call` has already checked the lengths are
equal, so the zip is the same binding), and run the body. On `Return(v)` the
saved chain suffix is restored and `v` yielded; on an error it is restored
and the error re-raised; on normal completion it is restored and
`Object::None` yielded. -/
def call : Nat → List Object → FunctionStmt → St → Option (St × Except LoxRuntimeException Object)
  | 0, _, _, _ => none
  | fuel+1, params, fn, s =>
    let d := s.environment.depth
    let env1 := (fn.params.zip params).foldl
      (fun env pv => env.define pv.1.lexeme pv.2)
      (Environment.new_enclosing s.environment)
    match execute_stmts fuel fn.body { s with environment := env1 } with
    | none => none
    | some (s, .error (.Return v)) =>
      some ({ s with environment := s.environment.popTo d }, .ok v)
    | some (s, .error (.Err e)) =>
      some ({ s with environment := s.environment.popTo d }, .error (.Err e))
    | some (s, .ok ()) =>
      some ({ s with environment := s.environment.popTo d }, .ok .None)

/-- `interpreter.rs`: `Interpreter::evaluate_unary`. The `unimplemented!()`
arm is modelled as `none`. -/
def evaluate_unary : Nat → Token → Expr → St → Option (St × Except LoxRuntimeException Object)
  | 0, _, _, _ => none
  | fuel+1, operator, rightE, s =>
    match evaluate_expr fuel rightE s with
    | none => none
    | some (s, .error ex) => some (s, .error ex)
    | some (s, .ok right) =>
      match operator.token_type with
      | .Bang => some (s, .ok (.Bool (!is_truthy right)))
      | .Minus =>
        match check_number_operand operator right with
        | .ok num => some (s, .ok (.Num num.neg))
        | .error e => some (s, .error (.Err e))
      | _ => none

/-- `interpreter.rs`: `Interpreter::evaluate_logical`: evaluate the left
operand; if it is truthy and the operator is `Or`, or falsy and the operator
is `And`, yield it without touching the right operand; otherwise evaluate and
yield the right operand. -/
def evaluate_logical :
    Nat → Expr → Token → Expr → St → Option (St × Except LoxRuntimeException Object)
  | 0, _, _, _, _ => none
  | fuel+1, leftE, operator, rightE, s =>
    match evaluate_expr fuel leftE s with
    | none => none
    | some (s, .error ex) => some (s, .error ex)
    | some (s, .ok left) =>
      if is_truthy left then
        if operator.token_type = .Or then some (s, .ok left)
        else evaluate_expr fuel rightE s
      else
        if operator.token_type = .And then some (s, .ok left)
        else evaluate_expr fuel rightE s

end

/-- `interpreter.rs`: `Interpreter::interpret`: run the top-level statements
in order; only `LoxRuntimeException::Err` aborts the loop (as
`Err(LoxRuntimeError)`); an escaping `LoxRuntimeException::Return` is
discarded by the `if let` and the loop continues; `Ok(())` at the end. -/
def interpret (fuel : Nat) : List Stmt → St → Option (St × Except LoxRuntimeError Unit)
  | [], s => some (s, .ok ())
  | stmt :: rest, s =>
    match execute_stmt fuel stmt s with
    | none => none
    | some (s, .error (.Err e)) => some (s, .error e)
    | some (s, _) => interpret fuel rest s

/-! ## The parser (`parser.rs`) -/

/-- `lib.rs`: `struct LoxParseError(Token, String)`. -/
structure LoxParseError where
  token : Token
  message : String

/-- `parser.rs`: `struct Parser { tokens, current }` (the borrowed token
slice is copied into the state). -/
structure Parser where
  tokens : List Token
  current : Nat

/-- The default for the `unwrap()`ed `tokens.get(...)` accesses: unreachable
on the `Eof`-terminated token lists this development feeds the parser. -/
def dummyToken : Token := .mk .Eof "" .None 0

/-- `parser.rs`: `Parser::peek` (`tokens.get(current).unwrap()`). -/
def Parser.peek (p : Parser) : Token :=
  p.tokens.getD p.current dummyToken

/-- `parser.rs`: `Parser::previous` (`tokens.get(current - 1).unwrap()`). -/
def Parser.previous (p : Parser) : Token :=
  p.tokens.getD (p.current - 1) dummyToken

/-- `parser.rs`: `Parser::is_at_end`. -/
def Parser.is_at_end (p : Parser) : Bool :=
  p.peek.token_type = .Eof

/-- `parser.rs`: `Parser::check`. -/
def Parser.check (p : Parser) (token_type : TokenType) : Bool :=
  if p.is_at_end then false else p.peek.token_type = token_type

/-- `parser.rs`: `Parser::advance`: step past the current token unless at
`Eof`, and yield `previous()`. -/
def Parser.advance (p : Parser) : Token × Parser :=
  let p' := if p.is_at_end then p else { p with current := p.current + 1 }
  (p'.previous, p')

/-- `parser.rs`: `Parser::match_type`: advance past the first expected type
that checks, reporting whether one did. -/
def Parser.match_type (p : Parser) (types : List TokenType) : Parser × Bool :=
  if types.any (fun expect => p.check expect) then ((p.advance).2, true)
  else (p, false)

/-- `parser.rs`: `Parser::consume`: `Ok(advance())` when the expected type is
next, else `Err(peek().clone())` without advancing. -/
def Parser.consume (p : Parser) (token_type : TokenType) : Except Token Token × Parser :=
  if p.check token_type then
    let (t, p') := p.advance
    (.ok t, p')
  else (.error p.peek, p)

/-- The loop of `Parser::synchronize`: stop at `Eof`, just after a `;`, or
just before one of the eight statement keywords; otherwise keep advancing. -/
def syncLoop : Nat → Parser → Option Parser
  | 0, _ => none
  | fuel+1, p =>
    if p.is_at_end then some p
    else if p.previous.token_type = .SemiColon then some p
    else
      match p.peek.token_type with
      | .Class | .For | .Fun | .If | .Print | .Return | .Var | .While => some p
      | _ => syncLoop fuel (p.advance).2

/-- `parser.rs`: `Parser::synchronize`: one unconditional `advance()`, then
the loop. -/
def synchronize (fuel : Nat) (p : Parser) : Option Parser :=
  syncLoop fuel (p.advance).2

/-- The result of a parsing method: the threaded parser state and either the
parsed value or the `LoxParseError` the method returned (`none` = fuel). -/
abbrev PRes (α : Type) := Option (Parser × Except LoxParseError α)

mutual

/-- `parser.rs`: `Parser::declaration`. -/
def declaration : Nat → Parser → PRes Stmt
  | 0, _ => none
  | fuel+1, p =>
    let (p, m) := p.match_type [.Fun]
    if m then function fuel p
    else
      let (p, m) := p.match_type [.Var]
      if m then var_declaration fuel p
      else statement fuel p

/-- `parser.rs`: `Parser::function`. The over-255 message is the source's,
verbatim: "Cant't have more than 255 parameters." (sic). -/
def function : Nat → Parser → PRes Stmt
  | 0, _ => none
  | fuel+1, p =>
    match p.consume .Identifier with
    | (.error t, p) => some (p, .error ⟨t, "Expect function name."⟩)
    | (.ok name, p) =>
      match p.consume .LeftParen with
      | (.error t, p) => some (p, .error ⟨t, "Expect '(' after function name."⟩)
      | (.ok _, p) =>
        match (if p.check .RightParen then (some (p, .ok []) : PRes (List Token))
            else paramsLoop fuel p []) with
        | none => none
        | some (p, .error e) => some (p, .error e)
        | some (p, .ok params) =>
          match p.consume .RightParen with
          | (.error t, p) => some (p, .error ⟨t, "Expect ')' after parameters."⟩)
          | (.ok _, p) =>
            match p.consume .LeftBrace with
            | (.error t, p) =>
              some (p, .error ⟨t, "Expect '\x7b' before function body."⟩)
            | (.ok _, p) =>
              match block_statement fuel p with
              | none => none
              | some (p, .error e) => some (p, .error e)
              | some (p, .ok body) => some (p, .ok (.Function (.mk name params body)))

/-- The parameter loop of `Parser::function`: the `>= 255` check runs *before*
each parameter is consumed, so the 256th parameter trips it. -/
def paramsLoop : Nat → Parser → List Token → PRes (List Token)
  | 0, _, _ => none
  | fuel+1, p, params =>
    if params.length ≥ 255 then
      some (p, .error ⟨p.peek, "Cant't have more than 255 parameters."⟩)
    else
      match p.consume .Identifier with
      | (.error t, p) => some (p, .error ⟨t, "Expect parameter name."⟩)
      | (.ok tok, p) =>
        let params := params ++ [tok]
        let (p, m) := p.match_type [.Comma]
        if m then paramsLoop fuel p params else some (p, .ok params)

/-- `parser.rs`: `Parser::var_declaration` (a missing initializer defaults to
the literal `Object::None`). -/
def var_declaration : Nat → Parser → PRes Stmt
  | 0, _ => none
  | fuel+1, p =>
    match p.consume .Identifier with
    | (.error t, p) => some (p, .error ⟨t, "Expect variable name."⟩)
    | (.ok name, p) =>
      let (p, m) := p.match_type [.Equal]
      match (if m then expression fuel p else (some (p, .ok (.Literal .None)) : PRes Expr)) with
      | none => none
      | some (p, .error e) => some (p, .error e)
      | some (p, .ok initializer) =>
        match p.consume .SemiColon with
        | (.error t, p) =>
          some (p, .error ⟨t, "Expect ';' after variable declaration."⟩)
        | (.ok _, p) => some (p, .ok (.Var name initializer))

/-- `parser.rs`: `Parser::statement`. -/
def statement : Nat → Parser → PRes Stmt
  | 0, _ => none
  | fuel+1, p =>
    let (p, m) := p.match_type [.Print]
    if m then print_statement fuel p
    else
      let (p, m) := p.match_type [.If]
      if m then if_statement fuel p
      else
        let (p, m) := p.match_type [.While]
        if m then while_statement fuel p
        else
          let (p, m) := p.match_type [.For]
          if m then for_statement fuel p
          else
            let (p, m) := p.match_type [.Return]
            if m then return_statement fuel p
            else
              let (p, m) := p.match_type [.LeftBrace]
              if m then
                match block_statement fuel p with
                | none => none
                | some (p, .error e) => some (p, .error e)
                | some (p, .ok stmts) => some (p, .ok (.Block stmts))
              else expression_statement fuel p

/-- `parser.rs`: `Parser::if_statement`. -/
def if_statement : Nat → Parser → PRes Stmt
  | 0, _ => none
  | fuel+1, p =>
    match p.consume .LeftParen with
    | (.error t, p) => some (p, .error ⟨t, "Expect '(' after 'if'."⟩)
    | (.ok _, p) =>
      match expression fuel p with
      | none => none
      | some (p, .error e) => some (p, .error e)
      | some (p, .ok condition) =>
        match p.consume .RightParen with
        | (.error t, p) => some (p, .error ⟨t, "Expect ')' after if condition."⟩)
        | (.ok _, p) =>
          match statement fuel p with
          | none => none
          | some (p, .error e) => some (p, .error e)
          | some (p, .ok then_branch) =>
            let (p, m) := p.match_type [.Else]
            if m then
              match statement fuel p with
              | none => none
              | some (p, .error e) => some (p, .error e)
              | some (p, .ok else_branch) =>
                some (p, .ok (.If condition then_branch (some else_branch)))
            else some (p, .ok (.If condition then_branch none))

/-- `parser.rs`: `Parser::while_statement`. -/
def while_statement : Nat → Parser → PRes Stmt
  | 0, _ => none
  | fuel+1, p =>
    match p.consume .LeftParen with
    | (.error t, p) => some (p, .error ⟨t, "Expect '(' after 'while'."⟩)
    | (.ok _, p) =>
      match expression fuel p with
      | none => none
      | some (p, .error e) => some (p, .error e)
      | some (p, .ok condition) =>
        match p.consume .RightParen with
        | (.error t, p) => some (p, .error ⟨t, "Expect ')' after while condition."⟩)
        | (.ok _, p) =>
          match statement fuel p with
          | none => none
          | some (p, .error e) => some (p, .error e)
          | some (p, .ok body) => some (p, .ok (.While condition body))

/-- `parser.rs`: `Parser::for_statement`, with its desugaring into `Block`
and `While`. -/
def for_statement : Nat → Parser → PRes Stmt
  | 0, _ => none
  | fuel+1, p =>
    match p.consume .LeftParen with
    | (.error t, p) => some (p, .error ⟨t, "Expect '(' after 'for'."⟩)
    | (.ok _, p) =>
      match (if p.check .SemiColon then
          let (_, p) := p.advance
          (some (p, .ok Option.none) : PRes (Option Stmt))
        else
          let (p, m) := p.match_type [.Var]
          if m then
            match var_declaration fuel p with
            | none => none
            | some (p, .error e) => some (p, .error e)
            | some (p, .ok st) => some (p, .ok (some st))
          else
            match expression_statement fuel p with
            | none => none
            | some (p, .error e) => some (p, .error e)
            | some (p, .ok st) => some (p, .ok (some st))) with
      | none => none
      | some (p, .error e) => some (p, .error e)
      | some (p, .ok initializer) =>
        match (if p.check .SemiColon then (some (p, .ok Option.none) : PRes (Option Expr))
          else
            match expression fuel p with
            | none => none
            | some (p, .error e) => some (p, .error e)
            | some (p, .ok c) => some (p, .ok (some c))) with
        | none => none
        | some (p, .error e) => some (p, .error e)
        | some (p, .ok condition) =>
          match p.consume .SemiColon with
          | (.error t, p) => some (p, .error ⟨t, "Expect ';' after loop condition."⟩)
          | (.ok _, p) =>
            match (if p.check .SemiColon then (some (p, .ok Option.none) : PRes (Option Expr))
              else
                match expression fuel p with
                | none => none
                | some (p, .error e) => some (p, .error e)
                | some (p, .ok i) => some (p, .ok (some i))) with
            | none => none
            | some (p, .error e) => some (p, .error e)
            | some (p, .ok increment) =>
              match p.consume .RightParen with
              | (.error t, p) => some (p, .error ⟨t, "Expect ')' after for closure."⟩)
              | (.ok _, p) =>
                match statement fuel p with
                | none => none
                | some (p, .error e) => some (p, .error e)
                | some (p, .ok body) =>
                  let body := match increment with
                    | some inc => Stmt.Block [body, .Expression inc]
                    | none => body
                  let body := match condition with
                    | some c => Stmt.While c body
                    | none => Stmt.While (.Literal (.Bool true)) body
                  let body := match initializer with
                    | some init => Stmt.Block [init, body]
                    | none => body
                  some (p, .ok body)

/-- `parser.rs`: `Parser::return_statement` (`keyword = previous()`). -/
def return_statement : Nat → Parser → PRes Stmt
  | 0, _ => none
  | fuel+1, p =>
    let keyword := p.previous
    match (if p.check .SemiColon then (some (p, .ok Option.none) : PRes (Option Expr))
      else
        match expression fuel p with
        | none => none
        | some (p, .error e) => some (p, .error e)
        | some (p, .ok v) => some (p, .ok (some v))) with
    | none => none
    | some (p, .error e) => some (p, .error e)
    | some (p, .ok value) =>
      match p.consume .SemiColon with
      | (.error t, p) => some (p, .error ⟨t, "Expect ';' after return value."⟩)
      | (.ok _, p) => some (p, .ok (.Return keyword value))

/-- `parser.rs`: `Parser::print_statement` (the message has no final period
in the source: "Expect ';' after value"). -/
def print_statement : Nat → Parser → PRes Stmt
  | 0, _ => none
  | fuel+1, p =>
    match expression fuel p with
    | none => none
    | some (p, .error e) => some (p, .error e)
    | some (p, .ok value) =>
      match p.consume .SemiColon with
      | (.ok _, p) => some (p, .ok (.Print value))
      | (.error t, p) => some (p, .error ⟨t, "Expect ';' after value"⟩)

/-- `parser.rs`: `Parser::block_statement`: declarations until `}` or `Eof`,
then the closing brace ("Expected '\x7d' after block." in the source). -/
def block_statement : Nat → Parser → PRes (List Stmt)
  | 0, _ => none
  | fuel+1, p => blockLoop fuel p []

/-- The declaration loop of `Parser::block_statement`. -/
def blockLoop : Nat → Parser → List Stmt → PRes (List Stmt)
  | 0, _, _ => none
  | fuel+1, p, stmts =>
    if !p.check .RightBrace && !p.is_at_end then
      match declaration fuel p with
      | none => none
      | some (p, .error e) => some (p, .error e)
      | some (p, .ok st) => blockLoop fuel p (stmts ++ [st])
    else
      match p.consume .RightBrace with
      | (.ok _, p) => some (p, .ok stmts)
      | (.error t, p) => some (p, .error ⟨t, "Expected '\x7d' after block."⟩)

/-- `parser.rs`: `Parser::expression_statement` (the message has no final
period in the source: "Expect ';' after expression"). -/
def expression_statement : Nat → Parser → PRes Stmt
  | 0, _ => none
  | fuel+1, p =>
    match expression fuel p with
    | none => none
    | some (p, .error e) => some (p, .error e)
    | some (p, .ok expr) =>
      match p.consume .SemiColon with
      | (.ok _, p) => some (p, .ok (.Expression expr))
      | (.error t, p) => some (p, .error ⟨t, "Expect ';' after expression"⟩)

/-- `parser.rs`: `Parser::expression`. -/
def expression : Nat → Parser → PRes Expr
  | 0, _ => none
  | fuel+1, p => assignment fuel p

/-- `parser.rs`: `Parser::assignment`: right-associative `=`, valid only when
the left-hand side parsed as a `Variable`. -/
def assignment : Nat → Parser → PRes Expr
  | 0, _ => none
  | fuel+1, p =>
    match or fuel p with
    | none => none
    | some (p, .error e) => some (p, .error e)
    | some (p, .ok expr) =>
      let (p, m) := p.match_type [.Equal]
      if m then
        let equals := p.previous
        match assignment fuel p with
        | none => none
        | some (p, .error e) => some (p, .error e)
        | some (p, .ok value) =>
          match expr with
          | .Variable name => some (p, .ok (.Assign name value))
          | _ => some (p, .error ⟨equals, "Invalid assignment target."⟩)
      else some (p, .ok expr)

/-- `parser.rs`: `Parser::or`. -/
def or : Nat → Parser → PRes Expr
  | 0, _ => none
  | fuel+1, p =>
    match and fuel p with
    | none => none
    | some (p, .error e) => some (p, .error e)
    | some (p, .ok expr) => orLoop fuel expr p

/-- The `while` of `Parser::or`. -/
def orLoop : Nat → Expr → Parser → PRes Expr
  | 0, _, _ => none
  | fuel+1, expr, p =>
    let (p, m) := p.match_type [.Or]
    if m then
      let operator := p.previous
      match and fuel p with
      | none => none
      | some (p, .error e) => some (p, .error e)
      | some (p, .ok right) => orLoop fuel (.Logical expr operator right) p
    else some (p, .ok expr)

/-- `parser.rs`: `Parser::and`. -/
def and : Nat → Parser → PRes Expr
  | 0, _ => none
  | fuel+1, p =>
    match equality fuel p with
    | none => none
    | some (p, .error e) => some (p, .error e)
    | some (p, .ok expr) => andLoop fuel expr p

/-- The `while` of `Parser::and`. -/
def andLoop : Nat → Expr → Parser → PRes Expr
  | 0, _, _ => none
  | fuel+1, expr, p =>
    let (p, m) := p.match_type [.And]
    if m then
      let operator := p.previous
      match equality fuel p with
      | none => none
      | some (p, .error e) => some (p, .error e)
      | some (p, .ok right) => andLoop fuel (.Logical expr operator right) p
    else some (p, .ok expr)

/-- `parser.rs`: `Parser::equality`. -/
def equality : Nat → Parser → PRes Expr
  | 0, _ => none
  | fuel+1, p =>
    match comparison fuel p with
    | none => none
    | some (p, .error e) => some (p, .error e)
    | some (p, .ok expr) => equalityLoop fuel expr p

/-- The `while` of `Parser::equality` (left-associative `!=` / `==`). -/
def equalityLoop : Nat → Expr → Parser → PRes Expr
  | 0, _, _ => none
  | fuel+1, expr, p =>
    let (p, m) := p.match_type [.BangEqual, .EqualEqual]
    if m then
      let operator := p.previous
      match comparison fuel p with
      | none => none
      | some (p, .error e) => some (p, .error e)
      | some (p, .ok right) => equalityLoop fuel (.Binary expr operator right) p
    else some (p, .ok expr)

/-- `parser.rs`: `Parser::comparison`. -/
def comparison : Nat → Parser → PRes Expr
  | 0, _ => none
  | fuel+1, p =>
    match term fuel p with
    | none => none
    | some (p, .error e) => some (p, .error e)
    | some (p, .ok expr) => comparisonLoop fuel expr p

/-- The `while` of `Parser::comparison` (left-associative `>` `>=` `<` `<=`). -/
def comparisonLoop : Nat → Expr → Parser → PRes Expr
  | 0, _, _ => none
  | fuel+1, expr, p =>
    let (p, m) := p.match_type [.Greater, .GreaterEqual, .Less, .LessEqual]
    if m then
      let operator := p.previous
      match term fuel p with
      | none => none
      | some (p, .error e) => some (p, .error e)
      | some (p, .ok right) => comparisonLoop fuel (.Binary expr operator right) p
    else some (p, .ok expr)

/-- `parser.rs`: `Parser::term`. -/
def term : Nat → Parser → PRes Expr
  | 0, _ => none
  | fuel+1, p =>
    match factor fuel p with
    | none => none
    | some (p, .error e) => some (p, .error e)
    | some (p, .ok expr) => termLoop fuel expr p

/-- The `while` of `Parser::term` (left-associative `+` / `-` over factors). -/
def termLoop : Nat → Expr → Parser → PRes Expr
  | 0, _, _ => none
  | fuel+1, expr, p =>
    let (p, m) := p.match_type [.Plus, .Minus]
    if m then
      let operator := p.previous
      match factor fuel p with
      | none => none
      | some (p, .error e) => some (p, .error e)
      | some (p, .ok right) => termLoop fuel (.Binary expr operator right) p
    else some (p, .ok expr)

/-- `parser.rs`: `Parser::factor`. -/
def factor : Nat → Parser → PRes Expr
  | 0, _ => none
  | fuel+1, p =>
    match unary fuel p with
    | none => none
    | some (p, .error e) => some (p, .error e)
    | some (p, .ok expr) => factorLoop fuel expr p

/-- The `while` of `Parser::factor` (left-associative `*` / `/` over unaries). -/
def factorLoop : Nat → Expr → Parser → PRes Expr
  | 0, _, _ => none
  | fuel+1, expr, p =>
    let (p, m) := p.match_type [.Star, .Slash]
    if m then
      let operator := p.previous
      match unary fuel p with
      | none => none
      | some (p, .error e) => some (p, .error e)
      | some (p, .ok right) => factorLoop fuel (.Binary expr operator right) p
    else some (p, .ok expr)

/-- `parser.rs`: `Parser::unary`. -/
def unary : Nat → Parser → PRes Expr
  | 0, _ => none
  | fuel+1, p =>
    let (p, m) := p.match_type [.Bang, .Minus]
    if m then
      let operator := p.previous
      match unary fuel p with
      | none => none
      | some (p, .error e) => some (p, .error e)
      | some (p, .ok right) => some (p, .ok (.Unary operator right))
    else call_expr fuel p

/-- `parser.rs`: `Parser::call`: a primary followed by any number of argument
lists. (Named `call_expr` here; `call` is the interpreter's.) -/
def call_expr : Nat → Parser → PRes Expr
  | 0, _ => none
  | fuel+1, p =>
    match primary fuel p with
    | none => none
    | some (p, .error e) => some (p, .error e)
    | some (p, .ok expr) => callLoop fuel expr p

/-- The `loop` of `Parser::call`. -/
def callLoop : Nat → Expr → Parser → PRes Expr
  | 0, _, _ => none
  | fuel+1, expr, p =>
    let (p, m) := p.match_type [.LeftParen]
    if m then
      match finish_call fuel expr p with
      | none => none
      | some (p, .error e) => some (p, .error e)
      | some (p, .ok expr) => callLoop fuel expr p
    else some (p, .ok expr)

/-- `parser.rs`: `Parser::finish_call`. -/
def finish_call : Nat → Expr → Parser → PRes Expr
  | 0, _, _ => none
  | fuel+1, callee, p =>
    match (if p.check .RightParen then (some (p, .ok []) : PRes (List Expr))
        else argsLoop fuel p []) with
    | none => none
    | some (p, .error e) => some (p, .error e)
    | some (p, .ok arguments) =>
      match p.consume .RightParen with
      | (.ok paren, p) => some (p, .ok (.Call callee paren arguments))
      | (.error t, p) => some (p, .error ⟨t, "Expect ')' after arguments."⟩)

/-- The argument loop of `Parser::finish_call`: each argument is pushed
*before* the `>= 255` check runs, so the 255th argument already trips it. -/
def argsLoop : Nat → Parser → List Expr → PRes (List Expr)
  | 0, _, _ => none
  | fuel+1, p, arguments =>
    match expression fuel p with
    | none => none
    | some (p, .error e) => some (p, .error e)
    | some (p, .ok arg) =>
      let arguments := arguments ++ [arg]
      if arguments.length ≥ 255 then
        some (p, .error ⟨p.peek, "Can't have more than 255 arguments."⟩)
      else
        let (p, m) := p.match_type [.Comma]
        if m then argsLoop fuel p arguments else some (p, .ok arguments)

/-- `parser.rs`: `Parser::primary`. The literal arms read `peek().literal`
before the final `self.current += 1`; the `unwrap()`s on `num()` / `str()`
(which cannot fail on scanner-made tokens) default to `0` / `""`. The
grouping-error message is the source's, verbatim: "Expecte ')' after
expression." (sic). -/
def primary : Nat → Parser → PRes Expr
  | 0, _ => none
  | fuel+1, p =>
    match p.peek.token_type with
    | .False => some ({ p with current := p.current + 1 }, .ok (.Literal (.Bool false)))
    | .True => some ({ p with current := p.current + 1 }, .ok (.Literal (.Bool true)))
    | .Nil => some ({ p with current := p.current + 1 }, .ok (.Literal .None))
    | .Number =>
      let n : F64 := match p.peek.literal.num with
        | .ok n => n
        | .error _ => 0
      some ({ p with current := p.current + 1 }, .ok (.Literal (.Num n)))
    | .String =>
      let str := match p.peek.literal.str with
        | .ok s => s
        | .error _ => ""
      some ({ p with current := p.current + 1 }, .ok (.Literal (.String str)))
    | .LeftParen =>
      let p := { p with current := p.current + 1 }
      match expression fuel p with
      | none => none
      | some (p, .error e) => some (p, .error e)
      | some (p, .ok expr) =>
        match p.consume .RightParen with
        | (.ok _, p) => some (p, .ok (.Grouping expr))
        | (.error t, p) => some (p, .error ⟨t, "Expecte ')' after expression."⟩)
    | .Identifier =>
      let p := { p with current := p.current + 1 }
      some (p, .ok (.Variable p.previous))
    | _ =>
      let (t, p) := p.advance
      some (p, .error ⟨t, "Expect expression."⟩)

end

/-- The `while !self.is_at_end()` loop of `Parser::parse`: collect parsed
declarations and recovered errors; each failing declaration is followed by
`synchronize()`. -/
def parseLoop : Nat → Parser → List Stmt → List LoxParseError →
    Option (List Stmt × List LoxParseError × Parser)
  | 0, _, _, _ => none
  | fuel+1, p, stmts, errs =>
    if p.is_at_end then some (stmts, errs, p)
    else
      match declaration fuel p with
      | none => none
      | some (p, .ok stmt) => parseLoop fuel p (stmts ++ [stmt]) errs
      | some (p, .error e) =>
        match synchronize fuel p with
        | none => none
        | some p => parseLoop fuel p stmts (errs ++ [e])

/-- `parser.rs`: `Parser::parse`: the whole statement list when no
declaration failed, otherwise every collected error. -/
def parse (fuel : Nat) (tokens : List Token) : Option (Except (List LoxParseError) (List Stmt)) :=
  match parseLoop fuel ⟨tokens, 0⟩ [] [] with
  | none => none
  | some (stmts, errs, _) => some (if errs.isEmpty then .ok stmts else .error errs)

/-! ## Concrete tokens and programs used by the theorems

The token values are written exactly as `scanner.rs` produces them: a
`Number` token carries `Object::Num` as its literal, an `Identifier` carries
`Object::String` of its text, operator and keyword tokens carry
`Object::None`, and the list ends in an `Eof` token. -/

/-- A `Number` token as the scanner emits it. -/
def numTok (lex : String) (n : F64) : Token := .mk .Number lex (.Num n) 1

/-- An operator, delimiter or keyword token as the scanner emits it. -/
def opTok (t : TokenType) (l : String) : Token := .mk t l .None 1

/-- An `Identifier` token as the scanner emits it. -/
def idTok (s : String) : Token := .mk .Identifier s (.String s) 1

/-- The terminating `Eof` token. -/
def eofTok : Token := .mk .Eof "" .None 1

/-- The message of the runtime error an interpretation ended with, if any. -/
def runError : Except LoxRuntimeError Unit → Option String
  | .ok _ => none
  | .error e => some e.message

/-- `fun inc() { i = i + 1; return i; }` from the closure-counter program. -/
def incStmt : FunctionStmt := .mk (idTok "inc") []
  [.Expression (.Assign (idTok "i")
      (.Binary (.Variable (idTok "i")) (opTok .Plus "+") (.Literal (.Num 1)))),
   .Return (opTok .Return "return") (some (.Variable (idTok "i")))]

/-- `fun counter() { var i = 0; fun inc() {...} return inc; }`. -/
def counterStmt : FunctionStmt := .mk (idTok "counter") []
  [.Var (idTok "i") (.Literal (.Num 0)),
   .Function incStmt,
   .Return (opTok .Return "return") (some (.Variable (idTok "inc")))]

/-- The closure-counter program of the spec:
`fun counter() {...} var c = counter(); print c(); print c();`. -/
def progC1 : List Stmt :=
  [.Function counterStmt,
   .Var (idTok "c") (.Call (.Variable (idTok "counter")) (opTok .RightParen ")") []),
   .Print (.Call (.Variable (idTok "c")) (opTok .RightParen ")") []),
   .Print (.Call (.Variable (idTok "c")) (opTok .RightParen ")") [])]

/-- `var a = 1; { a = 2; } print a;`. -/
def progC2 : List Stmt :=
  [.Var (idTok "a") (.Literal (.Num 1)),
   .Block [.Expression (.Assign (idTok "a") (.Literal (.Num 2)))],
   .Print (.Variable (idTok "a"))]

/-- `return 1; print 2;` — a `return` at top level followed by another
statement. -/
def progC10 : List Stmt :=
  [.Return (opTok .Return "return") (some (.Literal (.Num 1))),
   .Print (.Literal (.Num 2))]

/-- Tokens of `var ; print 2; var * ;` — two independently malformed
declarations separated by one valid statement. -/
def c4toks : List Token := [opTok .Var "var", opTok .SemiColon ";",
  opTok .Print "print", numTok "2" 2, opTok .SemiColon ";",
  opTok .Var "var", opTok .Star "*", opTok .SemiColon ";", eofTok]

/-- Tokens of `1 + 2 * 3 ;`. -/
def c6a : List Token := [numTok "1" 1, opTok .Plus "+", numTok "2" 2,
  opTok .Star "*", numTok "3" 3, opTok .SemiColon ";", eofTok]

/-- Tokens of `( 1 + 2 ) * 3 ;`. -/
def c6b : List Token := [opTok .LeftParen "(", numTok "1" 1, opTok .Plus "+",
  numTok "2" 2, opTok .RightParen ")", opTok .Star "*", numTok "3" 3,
  opTok .SemiColon ";", eofTok]

/-- Parse a single expression statement and evaluate its expression in the
initial state — the composition `Lox::run` performs for an expression
source. -/
def parse_eval_expr (fuel : Nat) (tokens : List Token) : Option Object :=
  match parse fuel tokens with
  | some (.ok [.Expression e]) =>
    match evaluate_expr fuel e initSt with
    | some (_, .ok v) => some v
    | _ => none
  | _ => none

/-- `1 / 0 > 0`, the expression whose evaluation the short-circuit claims
say is skipped. -/
def divExpr : Expr := .Binary
  (.Binary (.Literal (.Num 1)) (opTok .Slash "/") (.Literal (.Num 0)))
  (opTok .Greater ">") (.Literal (.Num 0))

/-- `false and (1 / 0 > 0)`. -/
def falseAndDiv : Expr := .Logical (.Literal (.Bool false)) (opTok .And "and") divExpr

/-- `true or (1 / 0 > 0)`. -/
def trueOrDiv : Expr := .Logical (.Literal (.Bool true)) (opTok .Or "or") divExpr

/-- The token run of `m + 1` call arguments `1 , 1 , … , 1` (comma-separated
`Number` tokens). -/
def argSuffix : Nat → List Token
  | 0 => [numTok "1" 1]
  | m+1 => numTok "1" 1 :: opTok .Comma "," :: argSuffix m

/-- The token run of `m + 1` parameters `a , a , … , a` (comma-separated
`Identifier` tokens). -/
def paramSuffix : Nat → List Token
  | 0 => [idTok "a"]
  | m+1 => idTok "a" :: opTok .Comma "," :: paramSuffix m

/-- The tokens following the `(` of a call with exactly 255 arguments:
`1 , 1 , … , 1 ) ; <eof>`. -/
def c8toks : List Token :=
  argSuffix 254 ++ (opTok .RightParen ")" :: [opTok .SemiColon ";", eofTok])

/-! ## Lemmas about the parser primitives -/

theorem getD_eq_headD_drop (l : List Token) (n : Nat) (d : Token) :
    l.getD n d = (l.drop n).headD d := by
  induction l generalizing n with
  | nil => cases n <;> rfl
  | cons a as ih =>
    cases n with
    | zero => rfl
    | succ m => simpa using ih m

theorem peek_of_drop {p : Parser} {t : Token} {rest : List Token}
    (h : p.tokens.drop p.current = t :: rest) : p.peek = t := by
  unfold Parser.peek
  rw [getD_eq_headD_drop, h]
  rfl

theorem drop_succ_of_drop {p : Parser} {t : Token} {rest : List Token}
    (h : p.tokens.drop p.current = t :: rest) :
    p.tokens.drop (p.current + 1) = rest := by
  have h2 : List.drop 1 (p.tokens.drop p.current) = rest := by rw [h]; rfl
  rw [List.drop_drop] at h2
  simpa using h2

theorem match_type_false {p : Parser} {t : Token} {rest : List Token}
    (h : p.tokens.drop p.current = t :: rest) (tts : List TokenType)
    (hmem : ¬ t.token_type ∈ tts) : p.match_type tts = (p, false) := by
  have hp : p.peek = t := peek_of_drop h
  simp only [Parser.match_type, List.any_eq_true]
  rw [if_neg]
  rintro ⟨x, hx, hcx⟩
  by_cases he : t.token_type = .Eof
  · simp [Parser.check, Parser.is_at_end, hp, he] at hcx
  · simp [Parser.check, Parser.is_at_end, hp, he] at hcx
    exact hmem (hcx ▸ hx)

theorem check_true_of_drop {p : Parser} {t : Token} {rest : List Token}
    (h : p.tokens.drop p.current = t :: rest) (tt : TokenType)
    (htt : t.token_type = tt) (hne : tt ≠ .Eof) : p.check tt = true := by
  have hp : p.peek = t := peek_of_drop h
  simp [Parser.check, Parser.is_at_end, hp, htt, hne]

theorem match_type_true {p : Parser} {t : Token} {rest : List Token}
    (h : p.tokens.drop p.current = t :: rest) (tts : List TokenType)
    (hmem : t.token_type ∈ tts) (hne : t.token_type ≠ .Eof) :
    p.match_type tts = ({ p with current := p.current + 1 }, true) := by
  have hp : p.peek = t := peek_of_drop h
  have hch : p.check t.token_type = true := check_true_of_drop h _ rfl hne
  have hany : tts.any (fun expect => p.check expect) = true := by
    simp only [List.any_eq_true]
    exact ⟨t.token_type, hmem, hch⟩
  simp only [Parser.match_type, hany, if_true]
  have hae : p.is_at_end = false := by
    simp [Parser.is_at_end, hp]
    intro hcon
    exact hne hcon
  simp [Parser.advance, hae]

theorem consume_ok {p : Parser} {t : Token} {rest : List Token}
    (h : p.tokens.drop p.current = t :: rest) (tt : TokenType)
    (htt : t.token_type = tt) (hne : tt ≠ .Eof) :
    p.consume tt = (.ok t, { p with current := p.current + 1 }) := by
  have hp : p.peek = t := peek_of_drop h
  have hch : p.check tt = true := check_true_of_drop h tt htt hne
  have hae : p.is_at_end = false := by
    simp [Parser.is_at_end, hp, htt]
    intro hcon
    exact hne (htt ▸ hcon)
  have hprev : ({ p with current := p.current + 1 } : Parser).previous = t := by
    simp only [Parser.previous]
    have : p.current + 1 - 1 = p.current := by omega
    rw [this]
    show p.tokens.getD p.current dummyToken = t
    rw [getD_eq_headD_drop, h]
    rfl
  simp [Parser.consume, hch, Parser.advance, hae, hprev]

theorem argSuffix_length (m : Nat) : (argSuffix m).length = 2 * m + 1 := by
  induction m with
  | zero => rfl
  | succ k ih => simp [argSuffix, ih]; omega

theorem drop_add_of_drop {p : Parser} {l : List Token} (k : Nat)
    (h : p.tokens.drop p.current = l) :
    p.tokens.drop (p.current + k) = l.drop k := by
  rw [← h, List.drop_drop, Nat.add_comm]

/-! ## A single `Number` token parses as a literal expression

When the token after the number closes every level of the expression grammar
(a comma or a right paren), `Parser::expression` consumes exactly the number
and yields its literal. -/

theorem expr_number_step (fuel : Nat) (p : Parser) (lx : String) (v : F64) (ln : Nat)
    (nx : Token) (rest : List Token)
    (hd : p.tokens.drop p.current = Token.mk .Number lx (.Num v) ln :: nx :: rest)
    (hnx : nx.token_type = .Comma ∨ nx.token_type = .RightParen) :
    expression (fuel + 12) p
      = some ({ p with current := p.current + 1 }, .ok (.Literal (.Num v))) := by
  have hp : p.peek = Token.mk .Number lx (.Num v) ln := peek_of_drop hd
  have hd1 : ({ p with current := p.current + 1 } : Parser).tokens.drop
      ({ p with current := p.current + 1 } : Parser).current = nx :: rest :=
    drop_succ_of_drop hd
  have hnotmem : ∀ tts : List TokenType, (TokenType.Comma ∈ tts → False) →
      (TokenType.RightParen ∈ tts → False) → ¬ nx.token_type ∈ tts := by
    intro tts h1 h2 hmem
    rcases hnx with h | h <;> rw [h] at hmem
    · exact h1 hmem
    · exact h2 hmem
  set p1 : Parser := { p with current := p.current + 1 } with hp1def
  have hmt1 : ∀ tts : List TokenType, ¬ nx.token_type ∈ tts →
      p1.match_type tts = (p1, false) := fun tts hm => match_type_false hd1 tts hm
  have hmtp : ∀ tts : List TokenType, ¬ TokenType.Number ∈ tts →
      p.match_type tts = (p, false) := fun tts hm => match_type_false hd tts (by
        simpa [Token.token_type] using hm)
  have hprim : ∀ f, primary (f + 1) p = some (p1, .ok (.Literal (.Num v))) := by
    intro f
    simp [primary, hp, Token.token_type, Token.literal, Object.num]
  have hcallLoop : ∀ f e, callLoop (f + 1) e p1 = some (p1, .ok e) := by
    intro f e
    rw [callLoop]
    simp [hmt1 [.LeftParen] (hnotmem _ (by simp) (by simp))]
  have hcall_expr : ∀ f, call_expr (f + 2) p = some (p1, .ok (.Literal (.Num v))) := by
    intro f
    rw [call_expr]
    simp [hprim, hcallLoop]
  have hunary : ∀ f, unary (f + 3) p = some (p1, .ok (.Literal (.Num v))) := by
    intro f
    rw [unary]
    simp [hmtp [.Bang, .Minus] (by simp), hcall_expr]
  have hfactorLoop : ∀ f e, factorLoop (f + 1) e p1 = some (p1, .ok e) := by
    intro f e
    rw [factorLoop]
    simp [hmt1 [.Star, .Slash] (hnotmem _ (by simp) (by simp))]
  have hfactor : ∀ f, factor (f + 4) p = some (p1, .ok (.Literal (.Num v))) := by
    intro f
    rw [factor]
    simp [hunary, hfactorLoop]
  have htermLoop : ∀ f e, termLoop (f + 1) e p1 = some (p1, .ok e) := by
    intro f e
    rw [termLoop]
    simp [hmt1 [.Plus, .Minus] (hnotmem _ (by simp) (by simp))]
  have hterm : ∀ f, term (f + 5) p = some (p1, .ok (.Literal (.Num v))) := by
    intro f
    rw [term]
    simp [hfactor, htermLoop]
  have hcompLoop : ∀ f e, comparisonLoop (f + 1) e p1 = some (p1, .ok e) := by
    intro f e
    rw [comparisonLoop]
    simp [hmt1 [.Greater, .GreaterEqual, .Less, .LessEqual]
      (hnotmem _ (by simp) (by simp))]
  have hcomp : ∀ f, comparison (f + 6) p = some (p1, .ok (.Literal (.Num v))) := by
    intro f
    rw [comparison]
    simp [hterm, hcompLoop]
  have heqLoop : ∀ f e, equalityLoop (f + 1) e p1 = some (p1, .ok e) := by
    intro f e
    rw [equalityLoop]
    simp [hmt1 [.BangEqual, .EqualEqual] (hnotmem _ (by simp) (by simp))]
  have heq : ∀ f, equality (f + 7) p = some (p1, .ok (.Literal (.Num v))) := by
    intro f
    rw [equality]
    simp [hcomp, heqLoop]
  have handLoop : ∀ f e, andLoop (f + 1) e p1 = some (p1, .ok e) := by
    intro f e
    rw [andLoop]
    simp [hmt1 [.And] (hnotmem _ (by simp) (by simp))]
  have hand : ∀ f, and (f + 8) p = some (p1, .ok (.Literal (.Num v))) := by
    intro f
    rw [and]
    simp [heq, handLoop]
  have horLoop : ∀ f e, orLoop (f + 1) e p1 = some (p1, .ok e) := by
    intro f e
    rw [orLoop]
    simp [hmt1 [.Or] (hnotmem _ (by simp) (by simp))]
  have hor : ∀ f, or (f + 9) p = some (p1, .ok (.Literal (.Num v))) := by
    intro f
    rw [or]
    simp [hand, horLoop]
  have hassign : ∀ f, assignment (f + 10) p = some (p1, .ok (.Literal (.Num v))) := by
    intro f
    rw [assignment]
    simp [hor, hmt1 [.Equal] (hnotmem _ (by simp) (by simp))]
  have hfinal : expression (fuel + 11 + 1) p = some (p1, .ok (.Literal (.Num v))) := by
    rw [expression]
    exact hassign _
  simpa using hfinal

/-! ## The 255-entry limits of the argument and parameter loops -/

theorem argsLoop_ok : ∀ (m : Nat), ∀ (fuel : Nat) (acc : List Expr) (p : Parser)
    (rest2 : List Token),
    p.tokens.drop p.current = argSuffix m ++ (opTok .RightParen ")" :: rest2) →
    acc.length + (m + 1) ≤ 254 →
    argsLoop (fuel + 13 + m) p acc
      = some ({ p with current := p.current + (2 * m + 1) },
          .ok (acc ++ List.replicate (m + 1) (.Literal (.Num 1)))) := by
  intro m
  induction m with
  | zero =>
    intro fuel acc p rest2 hd hlen
    have hd0 : p.tokens.drop p.current
        = numTok "1" 1 :: opTok .RightParen ")" :: rest2 := by simpa [argSuffix] using hd
    have hstep := expr_number_step fuel p "1" 1 1 (opTok .RightParen ")") rest2 hd0
      (Or.inr rfl)
    have hd1 : ({ p with current := p.current + 1 } : Parser).tokens.drop
        ({ p with current := p.current + 1 } : Parser).current
        = opTok .RightParen ")" :: rest2 := drop_succ_of_drop hd0
    have hlt : ((acc ++ [Expr.Literal (.Num 1)]).length ≥ 255) = False := by
      simp only [List.length_append, List.length_cons, List.length_nil, eq_iff_iff,
        iff_false]
      omega
    rw [show fuel + 13 + 0 = (fuel + 12) + 1 by omega]
    rw [argsLoop]
    simp only [hstep]
    simp [hlt, match_type_false hd1 [.Comma] (by simp [opTok, Token.token_type])]
    omega
  | succ m ih =>
    intro fuel acc p rest2 hd hlen
    have hd0 : p.tokens.drop p.current
        = numTok "1" 1 :: opTok .Comma ","
          :: (argSuffix m ++ (opTok .RightParen ")" :: rest2)) := by
      simpa [argSuffix] using hd
    have hstep := expr_number_step (fuel + 1 + m) p "1" 1 1 (opTok .Comma ",")
      (argSuffix m ++ (opTok .RightParen ")" :: rest2)) hd0 (Or.inl rfl)
    have hd1 : ({ p with current := p.current + 1 } : Parser).tokens.drop
        ({ p with current := p.current + 1 } : Parser).current
        = opTok .Comma "," :: (argSuffix m ++ (opTok .RightParen ")" :: rest2)) :=
      drop_succ_of_drop hd0
    have hd2 : ({ p with current := p.current + 1 + 1 } : Parser).tokens.drop
        ({ p with current := p.current + 1 + 1 } : Parser).current
        = argSuffix m ++ (opTok .RightParen ")" :: rest2) :=
      drop_succ_of_drop (p := { p with current := p.current + 1 }) hd1
    have hlt : ((acc ++ [Expr.Literal (.Num 1)]).length ≥ 255) = False := by
      simp only [List.length_append, List.length_cons, List.length_nil, eq_iff_iff,
        iff_false]
      omega
    have hmt := match_type_true hd1 [.Comma] (by simp [opTok, Token.token_type])
      (by simp [opTok, Token.token_type])
    have hih := ih fuel (acc ++ [Expr.Literal (.Num 1)])
      { p with current := p.current + 1 + 1 }
      rest2 hd2 (by simp; omega)
    rw [show fuel + 13 + (m + 1) = (fuel + 1 + m + 12) + 1 by omega]
    rw [argsLoop]
    simp only [hstep, hlt]
    rw [show fuel + 1 + m + 12 = fuel + 13 + m by omega]
    simp only [hmt, if_true, if_false]
    rw [hih]
    have hc : p.current + 1 + 1 + (2 * m + 1) = p.current + (2 * (m + 1) + 1) := by omega
    have hl : acc ++ [Expr.Literal (.Num 1)]
          ++ List.replicate (m + 1) (Expr.Literal (.Num 1))
        = acc ++ List.replicate (m + 1 + 1) (Expr.Literal (.Num 1)) := by
      simp [List.replicate_succ]
    simp only at hih ⊢
    rw [show ({ tokens := p.tokens, current := p.current + 1 + 1 + (2 * m + 1) } : Parser)
        = { tokens := p.tokens, current := p.current + (2 * (m + 1) + 1) } by rw [hc], hl]

theorem argsLoop_err : ∀ (m : Nat), ∀ (fuel : Nat) (acc : List Expr) (p : Parser)
    (rest2 : List Token),
    p.tokens.drop p.current = argSuffix m ++ (opTok .RightParen ")" :: rest2) →
    acc.length ≤ 254 → 255 ≤ acc.length + (m + 1) →
    argsLoop (fuel + 13 + m) p acc
      = some ({ p with current := p.current + (2 * (254 - acc.length) + 1) },
          .error ⟨Parser.peek { p with current := p.current + (2 * (254 - acc.length) + 1) },
            "Can't have more than 255 arguments."⟩) := by
  intro m
  induction m with
  | zero =>
    intro fuel acc p rest2 hd hle hge
    have hd0 : p.tokens.drop p.current
        = numTok "1" 1 :: opTok .RightParen ")" :: rest2 := by simpa [argSuffix] using hd
    have hstep := expr_number_step fuel p "1" 1 1 (opTok .RightParen ")") rest2 hd0
      (Or.inr rfl)
    have hlt : ((acc ++ [Expr.Literal (.Num 1)]).length ≥ 255) = True := by
      simp only [List.length_append, List.length_cons, List.length_nil, eq_iff_iff,
        iff_true]
      omega
    have hz : 254 - acc.length = 0 := by omega
    rw [show fuel + 13 + 0 = (fuel + 12) + 1 by omega]
    rw [argsLoop]
    simp only [hstep, hlt]
    simp [hz]
  | succ m ih =>
    intro fuel acc p rest2 hd hle hge
    have hd0 : p.tokens.drop p.current
        = numTok "1" 1 :: opTok .Comma ","
          :: (argSuffix m ++ (opTok .RightParen ")" :: rest2)) := by
      simpa [argSuffix] using hd
    have hstep := expr_number_step (fuel + 1 + m) p "1" 1 1 (opTok .Comma ",")
      (argSuffix m ++ (opTok .RightParen ")" :: rest2)) hd0 (Or.inl rfl)
    have hd1 : ({ p with current := p.current + 1 } : Parser).tokens.drop
        ({ p with current := p.current + 1 } : Parser).current
        = opTok .Comma "," :: (argSuffix m ++ (opTok .RightParen ")" :: rest2)) :=
      drop_succ_of_drop hd0
    rw [show fuel + 13 + (m + 1) = (fuel + 1 + m + 12) + 1 by omega]
    rw [argsLoop]
    simp only [hstep]
    by_cases hacc : acc.length = 254
    · have hlt : ((acc ++ [Expr.Literal (.Num 1)]).length ≥ 255) = True := by
        simp only [List.length_append, List.length_cons, List.length_nil, eq_iff_iff,
          iff_true]
        omega
      have hz : 254 - acc.length = 0 := by omega
      simp only [hlt]
      simp [hz]
    · have hlt : ((acc ++ [Expr.Literal (.Num 1)]).length ≥ 255) = False := by
        simp only [List.length_append, List.length_cons, List.length_nil, eq_iff_iff,
          iff_false]
        omega
      have hd2 : ({ p with current := p.current + 1 + 1 } : Parser).tokens.drop
          ({ p with current := p.current + 1 + 1 } : Parser).current
          = argSuffix m ++ (opTok .RightParen ")" :: rest2) :=
        drop_succ_of_drop (p := { p with current := p.current + 1 }) hd1
      have hmt := match_type_true hd1 [.Comma] (by simp [opTok, Token.token_type])
        (by simp [opTok, Token.token_type])
      have hih := ih fuel (acc ++ [Expr.Literal (.Num 1)])
        { p with current := p.current + 1 + 1 } rest2 hd2 (by simp; omega)
        (by simp; omega)
      rw [show fuel + 1 + m + 12 = fuel + 13 + m by omega]
      simp only [hlt, hmt, if_true, if_false]
      rw [hih]
      simp only at hih ⊢
      rw [show (acc ++ [Expr.Literal (Object.Num 1)]).length = acc.length + 1 by simp]
      rw [show p.current + 1 + 1 + (2 * (254 - (acc.length + 1)) + 1)
          = p.current + (2 * (254 - acc.length) + 1) by omega]

theorem paramsLoop_ok : ∀ (m : Nat), ∀ (fuel : Nat) (acc : List Token) (p : Parser)
    (rest2 : List Token),
    p.tokens.drop p.current = paramSuffix m ++ (opTok .RightParen ")" :: rest2) →
    acc.length + (m + 1) ≤ 255 →
    paramsLoop (fuel + 1 + m) p acc
      = some ({ p with current := p.current + (2 * m + 1) },
          .ok (acc ++ List.replicate (m + 1) (idTok "a"))) := by
  intro m
  induction m with
  | zero =>
    intro fuel acc p rest2 hd hlen
    have hd0 : p.tokens.drop p.current = idTok "a" :: opTok .RightParen ")" :: rest2 := by
      simpa [paramSuffix] using hd
    have hge : (acc.length ≥ 255) = False := by
      simp only [eq_iff_iff, iff_false]
      omega
    have hcons := consume_ok hd0 .Identifier (by simp [idTok, Token.token_type])
      (by simp)
    have hd1 : ({ p with current := p.current + 1 } : Parser).tokens.drop
        ({ p with current := p.current + 1 } : Parser).current
        = opTok .RightParen ")" :: rest2 := drop_succ_of_drop hd0
    rw [show fuel + 1 + 0 = fuel + 1 by omega]
    rw [paramsLoop]
    simp [hge, hcons, match_type_false hd1 [.Comma] (by simp [opTok, Token.token_type])]
  | succ m ih =>
    intro fuel acc p rest2 hd hlen
    have hd0 : p.tokens.drop p.current
        = idTok "a" :: opTok .Comma ","
          :: (paramSuffix m ++ (opTok .RightParen ")" :: rest2)) := by
      simpa [paramSuffix] using hd
    have hge : (acc.length ≥ 255) = False := by
      simp only [eq_iff_iff, iff_false]
      omega
    have hcons := consume_ok hd0 .Identifier (by simp [idTok, Token.token_type])
      (by simp)
    have hd1 : ({ p with current := p.current + 1 } : Parser).tokens.drop
        ({ p with current := p.current + 1 } : Parser).current
        = opTok .Comma "," :: (paramSuffix m ++ (opTok .RightParen ")" :: rest2)) :=
      drop_succ_of_drop hd0
    have hd2 : ({ p with current := p.current + 1 + 1 } : Parser).tokens.drop
        ({ p with current := p.current + 1 + 1 } : Parser).current
        = paramSuffix m ++ (opTok .RightParen ")" :: rest2) :=
      drop_succ_of_drop (p := { p with current := p.current + 1 }) hd1
    have hmt := match_type_true hd1 [.Comma] (by simp [opTok, Token.token_type])
      (by simp [opTok, Token.token_type])
    have hih := ih fuel (acc ++ [idTok "a"]) { p with current := p.current + 1 + 1 }
      rest2 hd2 (by simp; omega)
    rw [show fuel + 1 + (m + 1) = (fuel + 1 + m) + 1 by omega]
    rw [paramsLoop]
    simp only [hge, hcons, hmt, if_true, if_false, ite_false]
    rw [hih]
    simp only at hih ⊢
    rw [show p.current + 1 + 1 + (2 * m + 1) = p.current + (2 * (m + 1) + 1) by omega]
    rw [show acc ++ [idTok "a"] ++ List.replicate (m + 1) (idTok "a")
        = acc ++ List.replicate (m + 1 + 1) (idTok "a") by simp [List.replicate_succ]]

theorem paramsLoop_err : ∀ (m : Nat), ∀ (fuel : Nat) (acc : List Token) (p : Parser)
    (rest2 : List Token),
    p.tokens.drop p.current = paramSuffix m ++ (opTok .RightParen ")" :: rest2) →
    acc.length ≤ 255 → 256 ≤ acc.length + (m + 1) →
    paramsLoop (fuel + 1 + m) p acc
      = some ({ p with current := p.current + 2 * (255 - acc.length) },
          .error ⟨Parser.peek { p with current := p.current + 2 * (255 - acc.length) },
            "Cant't have more than 255 parameters."⟩) := by
  intro m
  induction m with
  | zero =>
    intro fuel acc p rest2 hd hle hge
    have hz : 255 - acc.length = 0 := by omega
    have hgeq : (acc.length ≥ 255) = True := by
      simp only [eq_iff_iff, iff_true]
      omega
    rw [show fuel + 1 + 0 = fuel + 1 by omega]
    rw [paramsLoop]
    simp only [hgeq, if_true]
    simp [hz]
  | succ m ih =>
    intro fuel acc p rest2 hd hle hge
    by_cases hacc : acc.length = 255
    · have hz : 255 - acc.length = 0 := by omega
      have hgeq : (acc.length ≥ 255) = True := by
        simp only [eq_iff_iff, iff_true]
        omega
      rw [show fuel + 1 + (m + 1) = (fuel + 1 + m) + 1 by omega]
      rw [paramsLoop]
      simp only [hgeq, if_true]
      simp [hz]
    · have hd0 : p.tokens.drop p.current
          = idTok "a" :: opTok .Comma ","
            :: (paramSuffix m ++ (opTok .RightParen ")" :: rest2)) := by
        simpa [paramSuffix] using hd
      have hgeq : (acc.length ≥ 255) = False := by
        simp only [eq_iff_iff, iff_false]
        omega
      have hcons := consume_ok hd0 .Identifier (by simp [idTok, Token.token_type])
        (by simp)
      have hd1 : ({ p with current := p.current + 1 } : Parser).tokens.drop
          ({ p with current := p.current + 1 } : Parser).current
          = opTok .Comma "," :: (paramSuffix m ++ (opTok .RightParen ")" :: rest2)) :=
        drop_succ_of_drop hd0
      have hd2 : ({ p with current := p.current + 1 + 1 } : Parser).tokens.drop
          ({ p with current := p.current + 1 + 1 } : Parser).current
          = paramSuffix m ++ (opTok .RightParen ")" :: rest2) :=
        drop_succ_of_drop (p := { p with current := p.current + 1 }) hd1
      have hmt := match_type_true hd1 [.Comma] (by simp [opTok, Token.token_type])
        (by simp [opTok, Token.token_type])
      have hih := ih fuel (acc ++ [idTok "a"]) { p with current := p.current + 1 + 1 }
        rest2 hd2 (by simp; omega) (by simp; omega)
      rw [show fuel + 1 + (m + 1) = (fuel + 1 + m) + 1 by omega]
      rw [paramsLoop]
      simp only [hgeq, hcons, hmt, if_true, if_false, ite_false]
      rw [hih]
      simp only at hih ⊢
      rw [show (acc ++ [idTok "a"]).length = acc.length + 1 by simp]
      rw [show p.current + 1 + 1 + 2 * (255 - (acc.length + 1))
          = p.current + 2 * (255 - acc.length) by omega]

theorem finish_call_ok : ∀ (m fuel : Nat) (callee : Expr) (p : Parser)
    (rest2 : List Token),
    p.tokens.drop p.current = argSuffix m ++ (opTok .RightParen ")" :: rest2) →
    m + 1 ≤ 254 →
    finish_call (fuel + 14 + m) callee p
      = some ({ p with current := p.current + (2 * m + 2) },
          .ok (.Call callee (opTok .RightParen ")")
            (List.replicate (m + 1) (.Literal (.Num 1))))) := by
  intro m fuel callee p rest2 hd hlen
  have hp : p.peek = numTok "1" 1 := by
    cases m with
    | zero => exact peek_of_drop (by simpa [argSuffix] using hd)
    | succ k => exact peek_of_drop (by simpa [argSuffix] using hd)
  have hchk : p.check .RightParen = false := by
    simp [Parser.check, Parser.is_at_end, hp, numTok, Token.token_type]
  have hargs := argsLoop_ok m fuel [] p rest2 hd (by simpa using hlen)
  have hdrop1 : ({ p with current := p.current + (2 * m + 1) } : Parser).tokens.drop
      ({ p with current := p.current + (2 * m + 1) } : Parser).current
      = opTok .RightParen ")" :: rest2 := by
    show p.tokens.drop (p.current + (2 * m + 1)) = _
    rw [drop_add_of_drop _ hd, ← argSuffix_length m, List.drop_left]
  have hcons := consume_ok hdrop1 .RightParen (by simp [opTok, Token.token_type])
    (by simp)
  rw [show fuel + 14 + m = (fuel + 13 + m) + 1 by omega]
  rw [finish_call]
  rw [show p.current + (2 * m + 2) = p.current + (2 * m + 1) + 1 by omega]
  simp [hchk, hargs, hcons]

theorem finish_call_err : ∀ (m fuel : Nat) (callee : Expr) (p : Parser)
    (rest2 : List Token),
    p.tokens.drop p.current = argSuffix m ++ (opTok .RightParen ")" :: rest2) →
    254 ≤ m →
    finish_call (fuel + 14 + m) callee p
      = some ({ p with current := p.current + 509 },
          .error ⟨Parser.peek { p with current := p.current + 509 },
            "Can't have more than 255 arguments."⟩) := by
  intro m fuel callee p rest2 hd hm
  have hp : p.peek = numTok "1" 1 := by
    cases m with
    | zero => exact peek_of_drop (by simpa [argSuffix] using hd)
    | succ k => exact peek_of_drop (by simpa [argSuffix] using hd)
  have hchk : p.check .RightParen = false := by
    simp [Parser.check, Parser.is_at_end, hp, numTok, Token.token_type]
  have hargs := argsLoop_err m fuel [] p rest2 hd (by simp) (by simp; omega)
  rw [show fuel + 14 + m = (fuel + 13 + m) + 1 by omega]
  rw [finish_call]
  simp [hchk, hargs]

/-- The recovery arm of the `Parser::parse` loop: a failing declaration is
recorded and parsing continues after `synchronize`. -/
theorem parseLoop_recovers (fuel : Nat) (p p1 p2 : Parser) (stmts : List Stmt)
    (errs : List LoxParseError) (e : LoxParseError)
    (hne : p.is_at_end = false)
    (hdecl : declaration fuel p = some (p1, .error e))
    (hsync : synchronize fuel p1 = some p2) :
    parseLoop (fuel + 1) p stmts errs = parseLoop fuel p2 stmts (errs ++ [e]) := by
  rw [parseLoop]
  simp [hne, hdecl, hsync]

/-! ## Lemmas about synchronize and the parse result shape -/

theorem syncLoop_boundary : ∀ (fuel : Nat) (p p' : Parser),
    syncLoop fuel p = some p' →
    p'.is_at_end = true ∨ p'.previous.token_type = .SemiColon ∨
      p'.peek.token_type ∈
        ([.Class, .For, .Fun, .If, .Print, .Return, .Var, .While] : List TokenType) := by
  intro fuel
  induction fuel with
  | zero => intro p p' h; simp [syncLoop] at h
  | succ f ih =>
    intro p p' h
    rw [syncLoop] at h
    by_cases h1 : p.is_at_end
    · rw [if_pos h1] at h
      cases h
      exact Or.inl h1
    · rw [if_neg h1] at h
      by_cases h2 : p.previous.token_type = .SemiColon
      · rw [if_pos h2] at h
        cases h
        exact Or.inr (Or.inl h2)
      · rw [if_neg h2] at h
        rcases h3 : p.peek.token_type with _ | _ | _ | _ | _ | _ | _ | _ | _ | _ | _
          | _ | _ | _ | _ | _ | _ | _ | _ | _ | _ | _ | _ | _ | _ | _ | _ | _ | _
          | _ | _ | _ | _ | _ | _ | _ | _ | _ <;> rw [h3] at h <;>
          first
            | (cases h; exact Or.inr (Or.inr (by rw [h3]; simp)))
            | exact ih _ _ h

theorem synchronize_boundary (fuel : Nat) (p p' : Parser)
    (h : synchronize fuel p = some p') :
    p'.is_at_end = true ∨ p'.previous.token_type = .SemiColon ∨
      p'.peek.token_type ∈
        ([.Class, .For, .Fun, .If, .Print, .Return, .Var, .While] : List TokenType) :=
  syncLoop_boundary fuel _ p' h

theorem parse_never_mixed (fuel : Nat) (ts : List Token)
    (r : Except (List LoxParseError) (List Stmt)) (h : parse fuel ts = some r) :
    (∃ sts, r = .ok sts) ∨ (∃ es, r = .error es ∧ es ≠ []) := by
  unfold parse at h
  rcases hpl : parseLoop fuel ⟨ts, 0⟩ [] [] with _ | ⟨sts, errs, p⟩
  · rw [hpl] at h; cases h
  · rw [hpl] at h
    cases h
    rcases errs with _ | ⟨e, es⟩
    · exact Or.inl ⟨sts, by simp⟩
    · exact Or.inr ⟨e :: es, by simp⟩

/-! ## Lemmas about logical short-circuiting -/

theorem logical_or_shortcut (fuel : Nat) (l r : Expr) (op : Token) (s s' : St)
    (v : Object) (hop : op.token_type = .Or)
    (hev : evaluate_expr fuel l s = some (s', .ok v)) (htr : is_truthy v = true) :
    evaluate_logical (fuel + 1) l op r s = some (s', .ok v) := by
  rw [evaluate_logical]
  simp [hev, htr, hop]

theorem logical_and_shortcut (fuel : Nat) (l r : Expr) (op : Token) (s s' : St)
    (v : Object) (hop : op.token_type = .And)
    (hev : evaluate_expr fuel l s = some (s', .ok v)) (htr : is_truthy v = false) :
    evaluate_logical (fuel + 1) l op r s = some (s', .ok v) := by
  rw [evaluate_logical]
  simp [hev, htr, hop]

theorem logical_or_right (fuel : Nat) (l r : Expr) (op : Token) (s s' : St)
    (v : Object) (hop : op.token_type = .Or)
    (hev : evaluate_expr fuel l s = some (s', .ok v)) (htr : is_truthy v = false) :
    evaluate_logical (fuel + 1) l op r s = evaluate_expr fuel r s' := by
  rw [evaluate_logical]
  simp [hev, htr, hop]

theorem logical_and_right (fuel : Nat) (l r : Expr) (op : Token) (s s' : St)
    (v : Object) (hop : op.token_type = .And)
    (hev : evaluate_expr fuel l s = some (s', .ok v)) (htr : is_truthy v = true) :
    evaluate_logical (fuel + 1) l op r s = evaluate_expr fuel r s' := by
  rw [evaluate_logical]
  simp [hev, htr, hop]

theorem evaluate_literal_step (fuel : Nat) (v : Object) (s : St) :
    evaluate_expr (fuel + 1) (.Literal v) s = some (s, .ok v) := by
  rw [evaluate_expr]

/-! ## Lemmas about the runtime type errors -/

theorem binary_numeric_type_error (fuel : Nat) (op : Token) (a b : Object) (s : St)
    (hop : op.token_type ∈ ([.Minus, .Star, .Slash, .Greater, .GreaterEqual,
      .Less, .LessEqual] : List TokenType))
    (hnum : a.num = .error () ∨ b.num = .error ()) :
    evaluate_binary (fuel + 2) (.Literal a) op (.Literal b) s
      = some (s, .error (.Err ⟨op, "Operand must be numbers."⟩)) := by
  rw [evaluate_binary]
  simp only [evaluate_literal_step]
  have hck : check_number_operands op a b = .error ⟨op, "Operand must be numbers."⟩ := by
    unfold check_number_operands
    rcases hnum with h | h
    · rw [h]
    · rcases ha : a.num with x | x <;> rw [h]
  simp only [List.mem_cons, List.mem_singleton] at hop
  rcases hop with h | h | h | h | h | h | h | h <;> first
    | (rw [h]; simp [hck])
    | cases h

theorem unary_minus_type_error (fuel : Nat) (op : Token) (a : Object) (s : St)
    (hop : op.token_type = .Minus) (hnum : a.num = .error ()) :
    evaluate_unary (fuel + 2) op (.Literal a) s
      = some (s, .error (.Err ⟨op, "Operand must be number."⟩)) := by
  rw [evaluate_unary]
  simp only [evaluate_literal_step]
  have hck : check_number_operand op a = .error ⟨op, "Operand must be number."⟩ := by
    unfold check_number_operand
    rw [hnum]
  simp [hop, hck]

theorem plus_type_error (fuel : Nat) (op : Token) (a b : Object) (s : St)
    (hop : op.token_type = .Plus)
    (hs : ∀ x y, ¬(a = .String x ∧ b = .String y))
    (hn : ∀ x y, ¬(a = .Num x ∧ b = .Num y)) :
    evaluate_binary (fuel + 2) (.Literal a) op (.Literal b) s
      = some (s, .error (.Err ⟨op, "Operands must be two numbers or two strings."⟩)) := by
  rw [evaluate_binary]
  simp only [evaluate_literal_step]
  rw [hop]
  cases a <;> cases b <;> simp <;>
    first
      | (exfalso; exact hs _ _ ⟨rfl, rfl⟩)
      | (exfalso; exact hn _ _ ⟨rfl, rfl⟩)

/-! ## Lemmas about top-level return -/

theorem interpret_return_value (fuel : Nat) (rest : List Stmt) (s s' : St)
    (kw : Token) (e : Expr) (v : Object)
    (hev : evaluate_expr fuel e s = some (s', .ok v)) :
    interpret (fuel + 1) (.Return kw (some e) :: rest) s
      = interpret (fuel + 1) rest s' := by
  rw [interpret, execute_stmt]
  simp [hev]

theorem interpret_return_none (fuel : Nat) (rest : List Stmt) (s : St) (kw : Token) :
    interpret (fuel + 1) (.Return kw none :: rest) s = interpret (fuel + 1) rest s := by
  rw [interpret, execute_stmt]

/-! ## The claims -/

set_option maxRecDepth 8000

/-- C1: the claim says a called function's body runs in a fresh environment
enclosing the environment captured at declaration, so the closure-counter
program prints 1 then 2. The code does neither: `Object::Fun` stores no
environment and `Interpreter::call` chains the fresh frame to the *caller's
current* environment, so when `c()` runs, `i` is in no reachable scope and
the program aborts with "Undefined variable 'i'." before producing any
output. -/
theorem C1_closure_counter_fails :
    (interpret 100 progC1 initSt).map (fun r => (runError r.2, r.1.output))
      = some (some "Undefined variable 'i'.", []) := rfl

/-- C2: the claim says `assign` returns Ok whenever some scope in the chain
defines the name, so `var a = 1; { a = 2; } print a;` prints 2. In the code
`Environment::assign` does mutate the nearest enclosing scope that defines
the name (first conjunct: the outer binding becomes 2) but then falls
through to `Err(UndefinedVariable)` instead of returning, so the program
aborts with "Undefined variable 'a'." and prints nothing (second
conjunct). -/
theorem C2_assign_falls_through_to_error :
    Environment.assign (.mk [] (some (.mk [("a", .Num 1)] none))) (idTok "a") (.Num 2)
      = (.mk [] (some (.mk [("a", .Num 2)] none)),
          .error (undefinedVariable (idTok "a")))
    ∧ (interpret 100 progC2 initSt).map (fun r => (runError r.2, r.1.output))
      = some (some "Undefined variable 'a'.", []) := ⟨rfl, rfl⟩

/-- C3: the claim says the Block arm restores the prior environment on every
exit path. It does not: executing `{ return; }` from a one-binding global
environment propagates the Return with the block's *child* frame still
current (first conjunct — the resulting environment is the child whose
enclosing scope is the old global, not the global itself), while a block
that completes normally does restore it (second conjunct). -/
theorem C3_block_skips_restore_on_return :
    execute_stmt 100 (.Block [.Return (opTok .Return "return") none])
        ⟨.mk [("x", .Num 1)] none, []⟩
      = some (⟨.mk [] (some (.mk [("x", .Num 1)] none)), []⟩, .error (.Return .None))
    ∧ execute_stmt 100 (.Block [.Var (idTok "y") (.Literal (.Num 2))])
        ⟨.mk [("x", .Num 1)] none, []⟩
      = some (⟨.mk [("x", .Num 1)] none, []⟩, .ok ()) := ⟨rfl, rfl⟩

/-- C4: `parse` either returns statements or returns all collected errors,
never a mixture, and recovery works per declaration: the token stream of
`var ; print 2; var * ;` (two independently malformed declarations around a
valid statement) yields exactly the two errors; in general a `parse` result
is either an Ok statement list or a nonempty error list; and `synchronize`
always stops at `Eof`, just after a `;`, or just before one of the eight
statement keywords. -/
theorem C4_parse_collects_all_errors :
    parse 1000 c4toks
      = some (.error [⟨opTok .SemiColon ";", "Expect variable name."⟩,
          ⟨opTok .Star "*", "Expect variable name."⟩])
    ∧ (∀ (fuel : Nat) (ts : List Token) (r : Except (List LoxParseError) (List Stmt)),
        parse fuel ts = some r →
          (∃ sts, r = .ok sts) ∨ (∃ es, r = .error es ∧ es ≠ []))
    ∧ (∀ (fuel : Nat) (p p' : Parser), synchronize fuel p = some p' →
        p'.is_at_end = true ∨ p'.previous.token_type = .SemiColon ∨
          p'.peek.token_type ∈
            ([.Class, .For, .Fun, .If, .Print, .Return, .Var, .While]
              : List TokenType)) :=
  ⟨rfl, parse_never_mixed, synchronize_boundary⟩

/-- Witness for C4: the never-mixed property applied to the concrete parse
above, and the synchronize boundary property applied to a concrete
two-token state. -/
theorem C4_parse_collects_all_errors_witness :
    ((∃ sts, (Except.error [(⟨opTok .SemiColon ";", "Expect variable name."⟩
          : LoxParseError), ⟨opTok .Star "*", "Expect variable name."⟩]
        : Except (List LoxParseError) (List Stmt)) = .ok sts) ∨
      (∃ es, (Except.error [(⟨opTok .SemiColon ";", "Expect variable name."⟩
          : LoxParseError), ⟨opTok .Star "*", "Expect variable name."⟩]
        : Except (List LoxParseError) (List Stmt)) = .error es ∧ es ≠ []))
    ∧ ((⟨[opTok .SemiColon ";", eofTok], 1⟩ : Parser).is_at_end = true ∨
        (⟨[opTok .SemiColon ";", eofTok], 1⟩ : Parser).previous.token_type = .SemiColon ∨
        (⟨[opTok .SemiColon ";", eofTok], 1⟩ : Parser).peek.token_type ∈
          ([.Class, .For, .Fun, .If, .Print, .Return, .Var, .While]
            : List TokenType)) :=
  ⟨C4_parse_collects_all_errors.2.1 1000 c4toks _ C4_parse_collects_all_errors.1,
   C4_parse_collects_all_errors.2.2 10 ⟨[opTok .SemiColon ";", eofTok], 0⟩
     ⟨[opTok .SemiColon ";", eofTok], 1⟩ rfl⟩

/-- C5: `or` with a truthy left operand and `and` with a falsy left operand
yield the left value for *every* right operand expression (so the right one
is never evaluated); otherwise the result is the right operand's evaluation;
and the two concrete programs `false and (1/0 > 0)` and `true or (1/0 > 0)`
evaluate without error to `false` and `true`. -/
theorem C5_logical_short_circuit :
    (∀ (fuel : Nat) (l r : Expr) (op : Token) (s s' : St) (v : Object),
        op.token_type = .Or → evaluate_expr fuel l s = some (s', .ok v) →
        is_truthy v = true →
        evaluate_logical (fuel + 1) l op r s = some (s', .ok v))
    ∧ (∀ (fuel : Nat) (l r : Expr) (op : Token) (s s' : St) (v : Object),
        op.token_type = .And → evaluate_expr fuel l s = some (s', .ok v) →
        is_truthy v = false →
        evaluate_logical (fuel + 1) l op r s = some (s', .ok v))
    ∧ (∀ (fuel : Nat) (l r : Expr) (op : Token) (s s' : St) (v : Object),
        op.token_type = .Or → evaluate_expr fuel l s = some (s', .ok v) →
        is_truthy v = false →
        evaluate_logical (fuel + 1) l op r s = evaluate_expr fuel r s')
    ∧ (∀ (fuel : Nat) (l r : Expr) (op : Token) (s s' : St) (v : Object),
        op.token_type = .And → evaluate_expr fuel l s = some (s', .ok v) →
        is_truthy v = true →
        evaluate_logical (fuel + 1) l op r s = evaluate_expr fuel r s')
    ∧ evaluate_expr 100 falseAndDiv initSt = some (initSt, .ok (.Bool false))
    ∧ evaluate_expr 100 trueOrDiv initSt = some (initSt, .ok (.Bool true)) :=
  ⟨logical_or_shortcut, logical_and_shortcut, logical_or_right, logical_and_right,
   rfl, rfl⟩

/-- Witness for C5: the `or` short-circuit applied to a truthy literal left
operand with the division expression as the (never evaluated) right
operand. -/
theorem C5_logical_short_circuit_witness :
    evaluate_logical (1 + 1) (.Literal (.Bool true)) (opTok .Or "or") divExpr initSt
      = some (initSt, .ok (.Bool true)) :=
  C5_logical_short_circuit.1 1 (.Literal (.Bool true)) divExpr (opTok .Or "or")
    initSt initSt (.Bool true) rfl rfl rfl

/-- C6 counterexample: the claim (and the spec sentence it quotes) says
`(1 + 2) * 3` evaluates to the Number 18; parsing and evaluating it yields
the Number 9, not 18. -/
theorem C6_counterexample_grouping_value :
    parse_eval_expr 1000 c6b = some (.Num 9)
    ∧ parse_eval_expr 1000 c6b ≠ some (.Num 18) := by
  refine ⟨rfl, ?_⟩
  intro h
  rw [show parse_eval_expr 1000 c6b = some (.Num 9) from rfl] at h
  injection h with h1
  injection h1 with h2
  exact absurd h2 (by decide)

/-- C6 (amended): parsing respects the precedence ladder — `1 + 2 * 3`
parses as `1 + (2 * 3)` and evaluates to the Number 7, and `(1 + 2) * 3`
evaluates to the Number 9 (not 18 as the spec sentence claims). -/
theorem C6_precedence_amended :
    parse 1000 c6a = some (.ok [.Expression (.Binary (.Literal (.Num 1))
        (opTok .Plus "+")
        (.Binary (.Literal (.Num 2)) (opTok .Star "*") (.Literal (.Num 3))))])
    ∧ parse_eval_expr 1000 c6a = some (.Num 7)
    ∧ parse_eval_expr 1000 c6b = some (.Num 9) := ⟨rfl, rfl, rfl⟩

/-- C7 counterexample: the claim quotes the messages "Operand must be a
number." and "Operands must be numbers.", but the code's
`check_number_operand(s)` build "Operand must be number." and "Operand must
be numbers." (sic) — shown here on `- true` and `1 < "a"`. -/
theorem C7_counterexample_messages :
    evaluate_expr 10 (.Unary (opTok .Minus "-") (.Literal (.Bool true))) initSt
      = some (initSt, .error (.Err ⟨opTok .Minus "-", "Operand must be number."⟩))
    ∧ "Operand must be number." ≠ "Operand must be a number."
    ∧ evaluate_expr 10 (.Binary (.Literal (.Num 1)) (opTok .Less "<")
        (.Literal (.String "a"))) initSt
      = some (initSt, .error (.Err ⟨opTok .Less "<", "Operand must be numbers."⟩))
    ∧ "Operand must be numbers." ≠ "Operands must be numbers." :=
  ⟨rfl, by decide, rfl, by decide⟩

/-- C7 (amended): unary `-` on a non-Number operand fails with message
"Operand must be number." (sic); binary `-`, `*`, `/`, `>`, `>=`, `<`, `<=`
with any non-Number operand fail with "Operand must be numbers." (sic);
`+` on a pair that is neither two Numbers nor two Strings fails with
"Operands must be two numbers or two strings.". -/
theorem C7_type_error_messages_amended :
    (∀ (fuel : Nat) (op : Token) (a : Object) (s : St),
        op.token_type = .Minus → a.num = .error () →
        evaluate_unary (fuel + 2) op (.Literal a) s
          = some (s, .error (.Err ⟨op, "Operand must be number."⟩)))
    ∧ (∀ (fuel : Nat) (op : Token) (a b : Object) (s : St),
        op.token_type ∈ ([.Minus, .Star, .Slash, .Greater, .GreaterEqual, .Less,
          .LessEqual] : List TokenType) →
        (a.num = .error () ∨ b.num = .error ()) →
        evaluate_binary (fuel + 2) (.Literal a) op (.Literal b) s
          = some (s, .error (.Err ⟨op, "Operand must be numbers."⟩)))
    ∧ (∀ (fuel : Nat) (op : Token) (a b : Object) (s : St),
        op.token_type = .Plus →
        (∀ x y, ¬(a = .String x ∧ b = .String y)) →
        (∀ x y, ¬(a = .Num x ∧ b = .Num y)) →
        evaluate_binary (fuel + 2) (.Literal a) op (.Literal b) s
          = some (s, .error (.Err ⟨op,
              "Operands must be two numbers or two strings."⟩))) :=
  ⟨unary_minus_type_error, binary_numeric_type_error, plus_type_error⟩

/-- Witness for C7: the three amended message facts at `- true`, `1 < "a"`
and `"1" + true`. -/
theorem C7_type_error_messages_amended_witness :
    evaluate_unary (0 + 2) (opTok .Minus "-") (.Literal (.Bool true)) initSt
      = some (initSt, .error (.Err ⟨opTok .Minus "-", "Operand must be number."⟩))
    ∧ evaluate_binary (0 + 2) (.Literal (.Num 1)) (opTok .Less "<")
        (.Literal (.String "a")) initSt
      = some (initSt, .error (.Err ⟨opTok .Less "<", "Operand must be numbers."⟩))
    ∧ evaluate_binary (0 + 2) (.Literal (.String "1")) (opTok .Plus "+")
        (.Literal (.Bool true)) initSt
      = some (initSt, .error (.Err ⟨opTok .Plus "+",
          "Operands must be two numbers or two strings."⟩)) :=
  ⟨C7_type_error_messages_amended.1 0 (opTok .Minus "-") (.Bool true) initSt rfl rfl,
   C7_type_error_messages_amended.2.1 0 (opTok .Less "<") (.Num 1) (.String "a")
     initSt (by decide) (Or.inr rfl),
   C7_type_error_messages_amended.2.2 0 (opTok .Plus "+") (.String "1") (.Bool true)
     initSt rfl (fun x y h => Object.noConfusion h.2) (fun x y h => Object.noConfusion h.1)⟩

/-- C8 counterexample: the claim says no argument list of 255 or fewer
entries is ever rejected by the limit; `finish_call` on a call with exactly
255 arguments (`c8toks`) stops with the parse error "Can't have more than
255 arguments." (the push happens before the `>= 255` check). -/
theorem C8_counterexample_255_arguments_rejected :
    finish_call 300 (.Variable (idTok "f")) ⟨c8toks, 0⟩
      = some (⟨c8toks, 509⟩, .error ⟨opTok .RightParen ")",
          "Can't have more than 255 arguments."⟩) := by
  rw [show (300 : Nat) = 32 + 14 + 254 by omega]
  rw [finish_call_err 254 32 (.Variable (idTok "f")) ⟨c8toks, 0⟩
    [opTok .SemiColon ";", eofTok] rfl (by omega)]
  rfl

/-- C8 (amended): a parameter list of up to 255 entries is accepted and one
of 256 or more entries errors with "Cant't have more than 255 parameters."
(sic, checked before each parameter is consumed); an argument list of up to
254 entries is accepted and one of 255 or more entries errors with "Can't
have more than 255 arguments." once the 255th argument has been parsed; a
failing declaration is recorded and parsing continues after
`synchronize`. -/
theorem C8_entry_limits_amended :
    (∀ (m : Nat), ∀ (fuel : Nat) (acc : List Token) (p : Parser) (rest2 : List Token),
        p.tokens.drop p.current = paramSuffix m ++ (opTok .RightParen ")" :: rest2) →
        acc.length + (m + 1) ≤ 255 →
        paramsLoop (fuel + 1 + m) p acc
          = some ({ p with current := p.current + (2 * m + 1) },
              .ok (acc ++ List.replicate (m + 1) (idTok "a"))))
    ∧ (∀ (m : Nat), ∀ (fuel : Nat) (acc : List Token) (p : Parser) (rest2 : List Token),
        p.tokens.drop p.current = paramSuffix m ++ (opTok .RightParen ")" :: rest2) →
        acc.length ≤ 255 → 256 ≤ acc.length + (m + 1) →
        paramsLoop (fuel + 1 + m) p acc
          = some ({ p with current := p.current + 2 * (255 - acc.length) },
              .error ⟨Parser.peek { p with current := p.current + 2 * (255 - acc.length) },
                "Cant't have more than 255 parameters."⟩))
    ∧ (∀ (m fuel : Nat) (callee : Expr) (p : Parser) (rest2 : List Token),
        p.tokens.drop p.current = argSuffix m ++ (opTok .RightParen ")" :: rest2) →
        m + 1 ≤ 254 →
        finish_call (fuel + 14 + m) callee p
          = some ({ p with current := p.current + (2 * m + 2) },
              .ok (.Call callee (opTok .RightParen ")")
                (List.replicate (m + 1) (.Literal (.Num 1))))))
    ∧ (∀ (m fuel : Nat) (callee : Expr) (p : Parser) (rest2 : List Token),
        p.tokens.drop p.current = argSuffix m ++ (opTok .RightParen ")" :: rest2) →
        254 ≤ m →
        finish_call (fuel + 14 + m) callee p
          = some ({ p with current := p.current + 509 },
              .error ⟨Parser.peek { p with current := p.current + 509 },
                "Can't have more than 255 arguments."⟩))
    ∧ (∀ (fuel : Nat) (p p1 p2 : Parser) (stmts : List Stmt)
          (errs : List LoxParseError) (e : LoxParseError),
        p.is_at_end = false →
        declaration fuel p = some (p1, .error e) →
        synchronize fuel p1 = some p2 →
        parseLoop (fuel + 1) p stmts errs = parseLoop fuel p2 stmts (errs ++ [e])) :=
  ⟨paramsLoop_ok, paramsLoop_err, finish_call_ok, finish_call_err, parseLoop_recovers⟩

/-- Witness for C8: the accepted-side limits applied to one-parameter and
one-argument lists. -/
theorem C8_entry_limits_amended_witness :
    paramsLoop (5 + 1 + 0) ⟨paramSuffix 0 ++ (opTok .RightParen ")" :: []), 0⟩ []
      = some ({ (⟨paramSuffix 0 ++ (opTok .RightParen ")" :: []), 0⟩ : Parser) with
            current := 0 + (2 * 0 + 1) },
          .ok ([] ++ List.replicate (0 + 1) (idTok "a")))
    ∧ finish_call (5 + 14 + 0) (.Variable (idTok "f"))
        ⟨argSuffix 0 ++ (opTok .RightParen ")" :: []), 0⟩
      = some ({ (⟨argSuffix 0 ++ (opTok .RightParen ")" :: []), 0⟩ : Parser) with
            current := 0 + (2 * 0 + 2) },
          .ok (.Call (.Variable (idTok "f")) (opTok .RightParen ")")
            (List.replicate (0 + 1) (.Literal (.Num 1))))) :=
  ⟨C8_entry_limits_amended.1 0 5 [] _ [] rfl (by simp),
   C8_entry_limits_amended.2.2.1 0 5 (.Variable (idTok "f")) _ [] rfl (by omega)⟩

/-- C9: the claim says numbers print in shortest decimal form (2.0 as "2",
1.05 as "1.05"). `strigify` renders the shortest decimal form but then runs
`replace(".0", "")`, which removes *every* occurrence of ".0": 2 prints as
"2", but 1.05 — whose shortest form "1.05" contains ".0" internally —
prints as "15", so `print 1.05;` emits "15". Strings, booleans and nil
print as claimed. -/
theorem C9_strigify_mangles_inner_decimal :
    strigify (.Num 2) = "2"
    ∧ F64.toString ⟨105, 100⟩ = "1.05"
    ∧ strigify (.Num ⟨105, 100⟩) = "15"
    ∧ execute_stmt 10 (.Print (.Literal (.Num ⟨105, 100⟩))) initSt
      = some (⟨Environment.new, ["15"]⟩, .ok ())
    ∧ strigify (.String "abc") = "abc"
    ∧ strigify (.Bool true) = "true"
    ∧ strigify (.Bool false) = "false"
    ∧ strigify .None = "nil" :=
  ⟨rfl, rfl, rfl, rfl, rfl, rfl, rfl, rfl⟩

/-- C10: a top-level `return` neither errors nor halts the run: `interpret`
discards the escaping Return (with or without a value) and continues with
the remaining statements, and the concrete program `return 1; print 2;`
ends Ok having printed "2". -/
theorem C10_top_level_return_continues :
    (∀ (fuel : Nat) (rest : List Stmt) (s s' : St) (kw : Token) (e : Expr) (v : Object),
        evaluate_expr fuel e s = some (s', .ok v) →
        interpret (fuel + 1) (.Return kw (some e) :: rest) s
          = interpret (fuel + 1) rest s')
    ∧ (∀ (fuel : Nat) (rest : List Stmt) (s : St) (kw : Token),
        interpret (fuel + 1) (.Return kw none :: rest) s = interpret (fuel + 1) rest s)
    ∧ interpret 100 progC10 initSt = some (⟨Environment.new, ["2"]⟩, .ok ()) :=
  ⟨interpret_return_value, interpret_return_none, rfl⟩

/-- Witness for C10: discarding a top-level `return 1;` before a print
statement. -/
theorem C10_top_level_return_continues_witness :
    interpret (1 + 1) (.Return (opTok .Return "return") (some (.Literal (.Num 1)))
        :: [.Print (.Literal (.Num 2))]) initSt
      = interpret (1 + 1) [.Print (.Literal (.Num 2))] initSt :=
  C10_top_level_return_continues.1 1 [.Print (.Literal (.Num 2))] initSt initSt
    (opTok .Return "return") (.Literal (.Num 1)) (.Num 1) rfl

end RLox
